import Mathlib

/-!
# ResQ.ai server: team roster and case dispatch

A shallow embedding of the roster methods of `models/team.model.js`, of the
self-service and management handlers of `controllers/team.controller.js`, and of
the incident and report handlers of `controllers/incident.controller.js` and
`controllers/report.controller.js`.

Modelling conventions.

* A Mongo `ObjectId` is a natural number; the source compares identities through
  `a.toString() === b.toString()`, which is equality of identities.
* A schema method runs on the in-memory document `this`.  Its model returns the
  error it threw (if any) together with the document as the method left it, so
  that an assignment made before a `throw` is visible.  `save()` is reached only
  when nothing was thrown; the handlers persist the document exactly then.
* A collection is a list of documents; `findById` is the first document with the
  given `_id`.
* `Date.now` is passed in as the parameter `now`.
* Schema enums are inductive types, so a value outside the enum is not an input.
-/

namespace ResQ

/-- Identity of a stored document (a Mongo `ObjectId`). -/
abbrev ObjectId := Nat

/-- The enum of `members.role` in the team schema. -/
inductive MemberRole where
  | member
  | supervisor
deriving DecidableEq, Repr

/-- The enum of `status` in the team schema. -/
inductive TeamStatus where
  | active
  | inactive
  | on_mission
deriving DecidableEq, Repr

/-- The enum of `role` in the user schema. -/
inductive UserRole where
  | user
  | admin
  | rescue
deriving DecidableEq, Repr

/-- One entry of `team.members`. -/
structure Member where
  user : ObjectId
  role : MemberRole
  joinedAt : Nat
deriving DecidableEq, Repr

/-- A team document (`teamSchema`), restricted to the fields the roster and
dispatch logic reads or writes.  `capacity` is a `Number` that the schema checks
with `min: 1` only, so it need not be whole; the rational numbers stand for the
finite values of a `Number`. -/
structure Team where
  _id : ObjectId
  name : String
  leader : ObjectId
  members : List Member
  isActive : Bool
  status : TeamStatus
  capacity : ℚ
  specialization : List String
  coordinates : List Int
deriving DecidableEq, Repr

/-- The four `throw new Error(...)` sites of the team schema methods. -/
inductive TeamError where
  | alreadyMember
  | capacityReached
  | notMember
  | alreadyLeader
deriving DecidableEq, Repr

/-- The message carried by each thrown error. -/
def TeamError.message : TeamError → String
  | .alreadyMember => "User is already a member of this team"
  | .capacityReached => "Team has reached maximum capacity"
  | .notMember => "User is not a member of this team"
  | .alreadyLeader => "User is already the team leader"

/-- What a schema method leaves behind: the error it threw, if any, and the
document `this` after the call.  The document is saved iff `thrown = none`. -/
structure MethodResult where
  thrown : Option TeamError
  doc : Team
deriving DecidableEq, Repr

/-- The virtual `memberCount`: `members.length + 1`, the `+ 1` for the leader.
The `members` of a document is always an array here, so the `Array.isArray`
fallback to `0` is never taken. -/
def memberCount (this : Team) : Nat :=
  let membersCount := this.members.length
  membersCount + 1

/-- The method `teamSchema.methods.addMember`. -/
def addMember (this : Team) (userId : ObjectId) (role : MemberRole) (now : Nat) :
    MethodResult :=
  let isMember := this.members.any (fun member => member.user == userId)
  if isMember then
    ⟨some .alreadyMember, this⟩
  else if (memberCount this : ℚ) ≥ this.capacity then
    ⟨some .capacityReached, this⟩
  else
    ⟨none, { this with members := this.members ++ [⟨userId, role, now⟩] }⟩

/-- The method `teamSchema.methods.removeMember`: the filtered list is assigned
to `this.members` before the length test. -/
def removeMember (this : Team) (userId : ObjectId) : MethodResult :=
  let initialLength := this.members.length
  let this1 : Team :=
    { this with members := this.members.filter (fun member => member.user != userId) }
  if this1.members.length == initialLength then
    ⟨some .notMember, this1⟩
  else
    ⟨none, this1⟩

/-- The method `teamSchema.methods.changeLeader`: push the old leader, filter
out the new one, then set the leader. -/
def changeLeader (this : Team) (newLeaderId : ObjectId) (now : Nat) : MethodResult :=
  if this.leader == newLeaderId then
    ⟨some .alreadyLeader, this⟩
  else
    match this.members.find? (fun member => member.user == newLeaderId) with
    | none => ⟨some .notMember, this⟩
    | some _ =>
      let this1 : Team :=
        { this with members := this.members ++ [⟨this.leader, .member, now⟩] }
      let this2 : Team :=
        { this1 with members := this1.members.filter (fun member => member.user != newLeaderId) }
      ⟨none, { this2 with leader := newLeaderId }⟩

/-! ## Collections and handlers -/

/-- A principal as the handlers see it: `req.user._id` and `req.user.role`. -/
structure Principal where
  _id : ObjectId
  role : UserRole
deriving DecidableEq, Repr

/-- How a handler ends: `res.status(code).json(data)`, `next(new AppError(message,
code))`, or an error thrown by a schema method and forwarded by `catchAsync`. -/
inductive Reply (α : Type) where
  | success (statusCode : Nat) (data : α)
  | failure (statusCode : Nat) (message : String)
  | thrown (e : TeamError)
  | validationError
  | typeError
deriving DecidableEq, Repr

/-- Whether the handler answered through `res.json`. -/
def Reply.isSuccess {α : Type} : Reply α → Bool
  | .success _ _ => true
  | _ => false

/-- The query `Team.findById(id)` on the stored teams. -/
def Team.findById (teams : List Team) (id : ObjectId) : Option Team :=
  teams.find? (fun t => t._id == id)

/-- The write `doc.save()` of an already stored team: the stored document with
the same `_id` is replaced. -/
def Team.save (teams : List Team) (doc : Team) : List Team :=
  teams.map (fun t => if t._id == doc._id then doc else t)

/-- The helper `checkTeamPermission`. -/
def checkTeamPermission (team : Team) (userId : ObjectId) (role : UserRole) : Bool :=
  if role == .admin then true
  else if team.leader == userId then true
  else false

/-- The handler `joinTeam` (self-service join). -/
def joinTeam (teams : List Team) (user : Principal) (teamId : ObjectId) (now : Nat) :
    Reply Unit × List Team :=
  let userId := user._id
  match Team.findById teams teamId with
  | none => (.failure 404 "No team found with that ID", teams)
  | some team =>
    if team.leader == userId then
      (.failure 400 "You are already the leader of this team", teams)
    else
      let alreadyMember := team.members.any (fun m => m.user == userId)
      if alreadyMember then
        (.failure 400 "You are already a member of this team", teams)
      else if (memberCount team : ℚ) ≥ team.capacity then
        (.failure 400 "Team has reached maximum capacity", teams)
      else
        match addMember team userId .member now with
        | ⟨some e, _⟩ => (.thrown e, teams)
        | ⟨none, doc⟩ => (.success 200 (), Team.save teams doc)

/-- The handler `leaveTeam` (self-service leave). -/
def leaveTeam (teams : List Team) (user : Principal) (teamId : ObjectId) :
    Reply Unit × List Team :=
  let userId := user._id
  match Team.findById teams teamId with
  | none => (.failure 404 "No team found with that ID", teams)
  | some team =>
    if team.leader == userId then
      (.failure 400 "Team leader cannot leave the team. Transfer leadership first.", teams)
    else
      let isMember := team.members.any (fun m => m.user == userId)
      if !isMember then
        (.failure 400 "You are not a member of this team", teams)
      else
        match removeMember team userId with
        | ⟨some e, _⟩ => (.thrown e, teams)
        | ⟨none, doc⟩ => (.success 200 (), Team.save teams doc)

/-- The handler `addTeamMember`; `users` is the list of stored user ids that
`User.findById` resolves. -/
def addTeamMember (teams : List Team) (users : List ObjectId) (user : Principal)
    (teamId userId : ObjectId) (role : MemberRole) (now : Nat) : Reply Unit × List Team :=
  match Team.findById teams teamId with
  | none => (.failure 404 "No team found with that ID", teams)
  | some team =>
    if !checkTeamPermission team user._id user.role then
      (.failure 403 "You do not have permission to add members to this team", teams)
    else if !users.contains userId then
      (.failure 404 "No user found with that ID", teams)
    else
      match addMember team userId role now with
      | ⟨some e, _⟩ => (.thrown e, teams)
      | ⟨none, doc⟩ => (.success 200 (), Team.save teams doc)

/-- The object `req.params`: the values a route binds, by parameter name.  A
name the route does not bind reads as `undefined`. -/
abbrev Params := List (String × ObjectId)

/-- The handler `removeTeamMember`.  It reads `req.params.userId` and looks the
team up by `req.params.teamId`; `Team.findById(undefined)` resolves to nothing,
and `removeMember(undefined)` throws a `TypeError` on `userId.toString()`. -/
def removeTeamMember (teams : List Team) (user : Principal) (params : Params) :
    Reply Unit × List Team :=
  let userId := params.lookup "userId"
  match (params.lookup "teamId").bind (Team.findById teams) with
  | none => (.failure 404 "No team found with that ID", teams)
  | some team =>
    if !checkTeamPermission team user._id user.role then
      (.failure 403 "You do not have permission to remove members from this team", teams)
    else
      match userId with
      | none => (.typeError, teams)
      | some userId =>
        match removeMember team userId with
        | ⟨some e, _⟩ => (.thrown e, teams)
        | ⟨none, doc⟩ => (.success 200 (), Team.save teams doc)

/-- The only route to `removeTeamMember`, `router.delete('/:id/members/:userId',
...)`: it binds the parameters `id` and `userId`.  The caller is one that the
route's `restrictTo('admin', 'rescue')` lets through. -/
def removeTeamMemberRoute (teams : List Team) (user : Principal) (id userId : ObjectId) :
    Reply Unit × List Team :=
  removeTeamMember teams user [("id", id), ("userId", userId)]

/-- The handler `changeTeamLeader`. -/
def changeTeamLeader (teams : List Team) (user : Principal) (teamId newLeaderId : ObjectId)
    (now : Nat) : Reply Unit × List Team :=
  match Team.findById teams teamId with
  | none => (.failure 404 "No team found with that ID", teams)
  | some team =>
    if !checkTeamPermission team user._id user.role then
      (.failure 403 "You do not have permission to change team leader", teams)
    else
      match changeLeader team newLeaderId now with
      | ⟨some e, _⟩ => (.thrown e, teams)
      | ⟨none, doc⟩ => (.success 200 (), Team.save teams doc)

/-- The body of a `POST /teams` request, as far as `createTeam` reads it.  The
fields `leader`, `status` and `members` of the body are overwritten by the
handler and therefore do not occur.  `name` is required by the schema;
`location` is absent (`none`) or an object whose `coordinates` may be absent;
`capacity` and `isActive` absent mean the schema defaults. -/
structure TeamBody where
  name : Option String
  location : Option (Option (List Int))
  specialization : List String
  capacity : Option ℚ
  isActive : Option Bool
deriving DecidableEq, Repr

/-- The validator of `location.coordinates` in the team schema. -/
def coordinatesValid (v : List Int) : Bool :=
  v.length == 2 && v.getD 0 0 ≥ -180 && v.getD 0 0 ≤ 180 && v.getD 1 0 ≥ -90 && v.getD 1 0 ≤ 90

/-- The enum of `specialization` in the team schema. -/
def specializationEnum : List String :=
  ["medical", "evacuation", "fire", "flood", "earthquake", "rescue", "other"]

/-- The handler `createTeam`.  `newId` is the `_id` the store gives the new
document.  Reading `location.coordinates` of an absent `location` throws a
`TypeError`.  `Team.create` validates the document (a Mongoose validation error
otherwise) and stores it; the handler then calls `addMember` for the creator
with role `supervisor` on the created team. -/
def createTeam (teams : List Team) (user : Principal) (body : TeamBody) (newId : ObjectId)
    (now : Nat) : Reply Team × List Team :=
  if user.role != .admin && user.role != .rescue then
    (.failure 403 "You do not have permission to create teams", teams)
  else
    match body.location with
    | none => (.typeError, teams)
    | some location =>
      let teamData : Team :=
        { _id := newId
          name := body.name.getD ""
          leader := user._id
          members := []
          isActive := body.isActive.getD true
          status := .active
          capacity := body.capacity.getD 10
          specialization := body.specialization
          coordinates := location.getD [0, 0] }
      if !(teamData.name != ""
            && coordinatesValid teamData.coordinates
            && teamData.specialization.all (fun s => specializationEnum.contains s)
            && teamData.capacity ≥ 1) then
        (.validationError, teams)
      else
        let created := teams ++ [teamData]
        match addMember teamData user._id .supervisor now with
        | ⟨some e, _⟩ => (.thrown e, created)
        | ⟨none, doc⟩ => (.success 201 doc, Team.save created doc)

/-! ## Incidents and reports -/

/-- The enum of `status` in the incident schema. -/
inductive IncidentStatus where
  | new
  | assigned
  | accepted
  | cancelled
  | completed
deriving DecidableEq, Repr

/-- An incident document (`incidentSchema`), restricted to its workflow fields. -/
structure Incident where
  _id : ObjectId
  status : IncidentStatus
  assignedTeam : Option ObjectId
  acceptedBy : Option ObjectId
  etaMinutes : Option Int
  cancelledBy : Option ObjectId
  cancelReason : Option String
deriving DecidableEq, Repr

/-- The enum of `status` in the report schema. -/
inductive ReportStatus where
  | pending
  | live
  | completed
  | cancelled
deriving DecidableEq, Repr

/-- A report document (`ReportSchema`), restricted to its owner and its workflow
fields. -/
structure Report where
  _id : ObjectId
  user : ObjectId
  status : ReportStatus
  assignedTeam : Option ObjectId
  assignedBy : Option ObjectId
  assignedAt : Option Nat
  etaMinutes : Option Int
  adminNotes : Option String
  resolutionNotes : Option String
  completedAt : Option Nat
  createdAt : Nat
deriving DecidableEq, Repr

/-- The query `Incident.findById(id)`. -/
def Incident.findById (incidents : List Incident) (id : ObjectId) : Option Incident :=
  incidents.find? (fun i => i._id == id)

/-- The write `incident.save()` of an already stored incident. -/
def Incident.save (incidents : List Incident) (doc : Incident) : List Incident :=
  incidents.map (fun i => if i._id == doc._id then doc else i)

/-- The call `Incident.findByIdAndUpdate(id, update, { new: true })`: the first
document with that `_id` is updated in place and returned, `none` when no
document has that `_id`. -/
def Incident.findByIdAndUpdate (incidents : List Incident) (id : ObjectId)
    (update : Incident → Incident) : Option Incident × List Incident :=
  match Incident.findById incidents id with
  | none => (none, incidents)
  | some found => (some (update found), Incident.save incidents (update found))

/-- The query `Report.findById(id)`. -/
def Report.findById (reports : List Report) (id : ObjectId) : Option Report :=
  reports.find? (fun r => r._id == id)

/-- The write `report.save()` of an already stored report. -/
def Report.save (reports : List Report) (doc : Report) : List Report :=
  reports.map (fun r => if r._id == doc._id then doc else r)

/-- JavaScript truthiness of an optional number: `undefined` and `0` are falsy. -/
def truthy (n : Option Int) : Bool :=
  match n with
  | none => false
  | some v => v != 0

/-- The handler `assignTeam`.  `teamId` and `etaMinutes` come from the body and
may be absent; `Team.findById(undefined)` resolves to nothing.  A key of the
update document whose value is `undefined` is not written. -/
def assignTeam (teams : List Team) (incidents : List Incident) (user : Principal)
    (incidentId : ObjectId) (teamId : Option ObjectId) (etaMinutes : Option Int) :
    Reply Incident × List Incident :=
  if user.role != .admin then (.failure 403 "Only admin can assign", incidents)
  else
    match teamId.bind (Team.findById teams) with
    | none => (.failure 404 "Team not found", incidents)
    | some _ =>
      match Incident.findByIdAndUpdate incidents incidentId (fun i =>
          { i with
            assignedTeam := teamId
            status := .assigned
            etaMinutes := if etaMinutes.isSome then etaMinutes else i.etaMinutes }) with
      | (none, _) => (.failure 404 "Incident not found", incidents)
      | (some incident, incidents1) => (.success 200 incident, incidents1)

/-- The handler `acceptIncident`: `teamId || incident.assignedTeam`, and the ETA
is written only when the supplied value is truthy.  The handler does not read
`req.user`; its route admits the roles `admin` and `rescue`. -/
def acceptIncident (incidents : List Incident) (incidentId : ObjectId)
    (teamId : Option ObjectId) (etaMinutes : Option Int) : Reply Incident × List Incident :=
  match Incident.findById incidents incidentId with
  | none => (.failure 404 "Incident not found", incidents)
  | some incident =>
    let incident1 : Incident := { incident with status := .accepted }
    let incident2 : Incident :=
      { incident1 with acceptedBy := if teamId.isSome then teamId else incident1.assignedTeam }
    let incident3 : Incident :=
      if truthy etaMinutes then { incident2 with etaMinutes := etaMinutes } else incident2
    (.success 200 incident3, Incident.save incidents incident3)

/-- The handler `cancelIncident`. -/
def cancelIncident (incidents : List Incident) (user : Principal) (incidentId : ObjectId)
    (reason : Option String) : Reply Incident × List Incident :=
  if user.role != .admin then (.failure 403 "Only admin can cancel", incidents)
  else
    match Incident.findByIdAndUpdate incidents incidentId (fun i =>
        { i with
          status := .cancelled
          cancelReason := if reason.isSome then reason else i.cancelReason
          cancelledBy := some user._id }) with
    | (none, _) => (.failure 404 "Incident not found", incidents)
    | (some incident, incidents1) => (.success 200 incident, incidents1)

/-- The handler `assignReport`: no team lookup; `teamId || null`. -/
def assignReport (reports : List Report) (user : Principal) (id : ObjectId)
    (teamId : Option ObjectId) (etaMinutes : Option Int) (adminNotes : Option String)
    (now : Nat) : Reply Report × List Report :=
  match Report.findById reports id with
  | none => (.failure 404 "Report not found", reports)
  | some report =>
    let report1 : Report := { report with assignedTeam := teamId }
    let report2 : Report := { report1 with assignedBy := some user._id }
    let report3 : Report := { report2 with assignedAt := some now }
    let report4 : Report := { report3 with etaMinutes := etaMinutes }
    let report5 : Report :=
      if adminNotes.isSome then { report4 with adminNotes := adminNotes } else report4
    let report6 : Report := { report5 with status := .live }
    (.success 200 report6, Report.save reports report6)

/-- The list `allowed` of `updateReportStatus`, read as a parse of the requested
string into the schema enum. -/
def allowedStatus (status : String) : Option ReportStatus :=
  if status == "pending" then some .pending
  else if status == "live" then some .live
  else if status == "completed" then some .completed
  else if status == "cancelled" then some .cancelled
  else none

/-- The handler `updateReportStatus`. -/
def updateReportStatus (reports : List Report) (id : ObjectId) (status : String)
    (resolutionNotes : Option String) (now : Nat) : Reply Report × List Report :=
  match allowedStatus status with
  | none => (.failure 400 "Invalid status", reports)
  | some st =>
    match Report.findById reports id with
    | none => (.failure 404 "Report not found", reports)
    | some report =>
      let report1 : Report := { report with status := st }
      let report2 : Report :=
        if resolutionNotes.isSome then { report1 with resolutionNotes := resolutionNotes }
        else report1
      let report3 : Report :=
        if st == .completed then { report2 with completedAt := some now } else report2
      (.success 200 report3, Report.save reports report3)

/-- The array `allowed` of `updateReportStatus`. -/
def allowed : List String :=
  ["pending", "live", "completed", "cancelled"]

/-- The string each value of the report status enum is stored as. -/
def ReportStatus.name : ReportStatus → String
  | .pending => "pending"
  | .live => "live"
  | .completed => "completed"
  | .cancelled => "cancelled"

/-! ## Deleting a team -/

/-- The call `Team.findByIdAndDelete(id)`: the first stored team with that `_id`
is removed. -/
def Team.findByIdAndDelete (teams : List Team) (id : ObjectId) : List Team :=
  teams.eraseP (fun t => t._id == id)

/-- The handler `deleteTeam`.  It reads the team collection only. -/
def deleteTeam (teams : List Team) (user : Principal) (teamId : ObjectId) :
    Reply Unit × List Team :=
  match Team.findById teams teamId with
  | none => (.failure 404 "No team found with that ID", teams)
  | some _ =>
    if user.role != .admin then
      (.failure 403 "You do not have permission to delete this team", teams)
    else
      (.success 204 (), Team.findByIdAndDelete teams teamId)

/-! ## Creating cases -/

/-- JavaScript truthiness of an optional string: `undefined` and `""` are falsy. -/
def truthyString (s : Option String) : Bool :=
  match s with
  | none => false
  | some v => v != ""

/-- The body of a `POST /incidents` request, as far as validation reads it. -/
structure IncidentBody where
  title : Option String
  priority : Option String
deriving DecidableEq, Repr

/-- The enum of `priority` in the incident schema, also that of `urgency` in the
report schema. -/
def priorityEnum : List String :=
  ["low", "medium", "high", "critical"]

/-- The handler `createIncident`: `title` defaults to `Emergency Report` and
`priority` to `high`; the stored document starts with the schema default status
`new` and no workflow field set. -/
def createIncident (incidents : List Incident) (body : IncidentBody) (newId : ObjectId) :
    Reply Incident × List Incident :=
  let priority := if truthyString body.priority then body.priority.getD "" else "high"
  if !priorityEnum.contains priority then
    (.validationError, incidents)
  else
    let incident : Incident :=
      { _id := newId
        status := .new
        assignedTeam := none
        acceptedBy := none
        etaMinutes := none
        cancelledBy := none
        cancelReason := none }
    (.success 201 incident, incidents ++ [incident])

/-- The body of a `POST /reports` request, as far as validation reads it. -/
structure ReportBody where
  disasterType : Option String
  disasterSubType : Option String
  location : Option String
  pincode : Option String
  description : Option String
  urgency : Option String
deriving DecidableEq, Repr

/-- The enum of `disasterType` in the report schema. -/
def disasterTypeEnum : List String :=
  ["natural", "manmade", "accident"]

/-- The handler `createReport`: the five required strings must be present and
non-empty, `disasterType` and `urgency` must lie in their enums (`urgency`
defaults to `medium`); the stored document belongs to the caller and starts
with the schema default status `pending` and no workflow field set. -/
def createReport (reports : List Report) (user : Principal) (body : ReportBody)
    (newId : ObjectId) (now : Nat) : Reply Report × List Report :=
  let urgency := if truthyString body.urgency then body.urgency.getD "" else "medium"
  if !(truthyString body.disasterType
        && disasterTypeEnum.contains (body.disasterType.getD "")
        && truthyString body.disasterSubType
        && truthyString body.location
        && truthyString body.pincode
        && truthyString body.description
        && priorityEnum.contains urgency) then
    (.validationError, reports)
  else
    let report : Report :=
      { _id := newId
        user := user._id
        status := .pending
        assignedTeam := none
        assignedBy := none
        assignedAt := none
        etaMinutes := none
        adminNotes := none
        resolutionNotes := none
        completedAt := none
        createdAt := now }
    (.success 201 report, reports ++ [report])

/-! ## Sequences of calls -/

/-- One request to the incident handlers that can write. -/
inductive IncidentCall where
  | create (body : IncidentBody) (newId : ObjectId)
  | assign (teams : List Team) (user : Principal) (incidentId : ObjectId)
      (teamId : Option ObjectId) (etaMinutes : Option Int)
  | accept (incidentId : ObjectId) (teamId : Option ObjectId) (etaMinutes : Option Int)
  | cancel (user : Principal) (incidentId : ObjectId) (reason : Option String)

/-- The incident collection after one request. -/
def IncidentCall.run (incidents : List Incident) : IncidentCall → List Incident
  | .create body newId => (createIncident incidents body newId).2
  | .assign teams user incidentId teamId etaMinutes =>
    (assignTeam teams incidents user incidentId teamId etaMinutes).2
  | .accept incidentId teamId etaMinutes =>
    (acceptIncident incidents incidentId teamId etaMinutes).2
  | .cancel user incidentId reason => (cancelIncident incidents user incidentId reason).2

/-- Whether a request, if it is a cancel, carries a reason. -/
def IncidentCall.givesReason : IncidentCall → Bool
  | .cancel _ _ reason => reason.isSome
  | _ => true

/-- The incident collection after a sequence of requests on an empty one. -/
def runIncidentCalls (calls : List IncidentCall) : List Incident :=
  calls.foldl IncidentCall.run []

/-- One request to the report handlers that can write. -/
inductive ReportCall where
  | create (user : Principal) (body : ReportBody) (newId : ObjectId) (now : Nat)
  | assign (user : Principal) (id : ObjectId) (teamId : Option ObjectId)
      (etaMinutes : Option Int) (adminNotes : Option String) (now : Nat)
  | setStatus (id : ObjectId) (status : String) (resolutionNotes : Option String) (now : Nat)

/-- The report collection after one request. -/
def ReportCall.run (reports : List Report) : ReportCall → List Report
  | .create user body newId now => (createReport reports user body newId now).2
  | .assign user id teamId etaMinutes adminNotes now =>
    (assignReport reports user id teamId etaMinutes adminNotes now).2
  | .setStatus id status resolutionNotes now =>
    (updateReportStatus reports id status resolutionNotes now).2

/-- The report collection after a sequence of requests on an empty one. -/
def runReportCalls (calls : List ReportCall) : List Report :=
  calls.foldl ReportCall.run []

/-! ## Reading reports -/

/-- A user document (`userSchema`), restricted to its identity, display fields
and role. -/
structure User where
  _id : ObjectId
  name : String
  email : String
  role : UserRole
deriving DecidableEq, Repr

/-- What `.populate('user', 'name email')` puts in the path `user`: the
referenced user document with the selected fields. -/
structure PopulatedUser where
  _id : ObjectId
  name : String
  email : String
deriving DecidableEq, Repr

/-- A report as the read queries return it after `.populate('user', 'name
email')`: the path `user` holds the referenced user document, `null` when no
stored user has that id.  The populated paths `assignedTeam` and `assignedBy`
are not read by the handlers and stay as stored. -/
structure PopulatedReport where
  report : Report
  user : Option PopulatedUser
deriving DecidableEq, Repr

/-- The step `.populate('user', 'name email')` on one report. -/
def populate (users : List User) (report : Report) : PopulatedReport :=
  { report := report
    user := (users.find? (fun u => u._id == report.user)).map
      (fun u => { _id := u._id, name := u.name, email := u.email }) }

/-- The value of a `toString()` call, up to what `!==` can tell apart: the
24-digit hexadecimal string of an `ObjectId`, equal for equal ids only, or the
`util.inspect` rendering of a document, which is what `toString()` of a Mongoose
document returns; that rendering starts with a brace and is the hexadecimal
string of no id. -/
inductive Rendered where
  | hex (id : ObjectId)
  | inspect (doc : PopulatedUser)
deriving DecidableEq, Repr

/-- The handler `getReports`: the filter is the status of the query string, when
truthy, and the caller's id unless the caller is an admin; the result is sorted
by `createdAt`, newest first, and populated. -/
def getReports (reports : List Report) (users : List User) (user : Principal)
    (status : Option String) : Reply (List PopulatedReport) :=
  let byStatus := fun (r : Report) =>
    if truthyString status then r.status.name == status.getD "" else true
  let byUser := fun (r : Report) =>
    if user.role != .admin then r.user == user._id else true
  let found := reports.filter (fun r => byStatus r && byUser r)
  let sorted := found.insertionSort (fun a b => a.createdAt ≥ b.createdAt)
  .success 200 (sorted.map (populate users))

/-- The handler `getReportById`: the report is populated before the ownership
test, so `report.user.toString()` is the rendering of the populated user
document (a `TypeError` when the path is `null`), compared with the hexadecimal
string of the caller's id. -/
def getReportById (reports : List Report) (users : List User) (user : Principal)
    (id : ObjectId) : Reply PopulatedReport :=
  match (Report.findById reports id).map (populate users) with
  | none => .failure 404 "Report not found"
  | some report =>
    if user.role != .admin then
      match report.user with
      | none => .typeError
      | some owner =>
        if Rendered.inspect owner != Rendered.hex user._id then
          .failure 403 "Not authorized to view this report"
        else
          .success 200 report
    else
      .success 200 report

/-! ## Finding teams -/

/-- The static `teamSchema.statics.findBySpecialization`: `this.find({
specialization })`.  On the array path `specialization` the condition holds for
a team whose tags include the value; the query has no other condition. -/
def Team.findBySpecialization (teams : List Team) (specialization : String) : List Team :=
  teams.filter (fun t => t.specialization.contains specialization)

/-- The handler `getTeamsBySpecialization`. -/
def getTeamsBySpecialization (teams : List Team) (specialization : String) :
    Reply (List Team) :=
  .success 200 (Team.findBySpecialization teams specialization)

/-- The static `teamSchema.statics.findNearLocation`: `this.find` with the
condition `$near` on `location` (query point `coordinates`, `$maxDistance` in
metres, default `10000`) and the condition `isActive: true`.  The operator
`$near` keeps the documents within `$maxDistance` of the point and returns them
from nearest to farthest.  `distance` is the distance in metres that the database
computes between a stored coordinate pair and the query point; it is a parameter
of the model. -/
def Team.findNearLocation (distance : List Int → List Int → ℚ) (teams : List Team)
    (coordinates : List Int) (maxDistance : Option Nat) : List Team :=
  let limit : ℚ := ((maxDistance.getD 10000 : Nat) : ℚ)
  let found := teams.filter (fun t =>
    decide (distance t.coordinates coordinates ≤ limit) && t.isActive)
  found.insertionSort (fun a b =>
    distance a.coordinates coordinates ≤ distance b.coordinates coordinates)

/-- The handler `getTeamsNearLocation`: `lng` and `lat` are the parsed query
values, absent when the query string has none; `maxDistance` is the parsed
query value, absent when the query string has none. -/
def getTeamsNearLocation (distance : List Int → List Int → ℚ) (teams : List Team)
    (lng lat : Option Int) (maxDistance : Option Nat) : Reply (List Team) :=
  match lng, lat with
  | some x, some y =>
    .success 200 (Team.findNearLocation distance teams [x, y] (some (maxDistance.getD 10000)))
  | _, _ => .failure 400 "Please provide latitude and longitude in the format: lat,lng"

/-! ## Two concurrent roster requests -/

/-- A request that adds an entry to a roster: `addMember` called for a user, or
the self-service `joinTeam` of a principal. -/
inductive RosterRequest where
  | add (userId : ObjectId) (role : MemberRole) (now : Nat)
  | join (user : Principal) (now : Nat)
deriving DecidableEq, Repr

/-- The part of a request that runs, without interruption, between the arrival
of the document read by `Team.findById` and the call of `save()`: the checks and
the `members.push`.  The value is the list of entries pushed onto the copy that
was read, empty when a check failed.  For `join` these are the three checks of
the handler `joinTeam` followed by `addMember`. -/
def RosterRequest.pushed (snapshot : Team) : RosterRequest → List Member
  | .add userId role now =>
    match addMember snapshot userId role now with
    | ⟨none, doc⟩ => doc.members.drop snapshot.members.length
    | ⟨some _, _⟩ => []
  | .join user now =>
    if snapshot.leader == user._id then []
    else if snapshot.members.any (fun m => m.user == user._id) then []
    else if (memberCount snapshot : ℚ) ≥ snapshot.capacity then []
    else
      match addMember snapshot user._id .member now with
      | ⟨none, doc⟩ => doc.members.drop snapshot.members.length
      | ⟨some _, _⟩ => []

/-- The two requests of a race. -/
inductive Pid where
  | first
  | second
deriving DecidableEq, Repr

/-- The two accesses a request makes to the stored team: the read of `findById`
and the write of `save()`. -/
inductive Op where
  | read (p : Pid)
  | save (p : Pid)
deriving DecidableEq, Repr

/-- The stored team together with what each request has pushed onto its own
copy, `none` before the request has read. -/
structure World where
  stored : Team
  first : Option (List Member)
  second : Option (List Member)
deriving DecidableEq, Repr

/-- One access.  A read takes the stored team as it is at that moment and runs
the request's checks on it.  A save of a document whose only change is a
`members.push` sends the pushed entries, which are appended to the stored team
as it is at that moment; a request whose check failed saves nothing. -/
def World.step (a b : RosterRequest) (w : World) : Op → World
  | .read .first => { w with first := some (a.pushed w.stored) }
  | .read .second => { w with second := some (b.pushed w.stored) }
  | .save .first =>
    { w with stored := { w.stored with members := w.stored.members ++ w.first.getD [] } }
  | .save .second =>
    { w with stored := { w.stored with members := w.stored.members ++ w.second.getD [] } }

/-- The world after the accesses of a schedule, starting from the stored team
`t` with neither request having read. -/
def runSchedule (t : Team) (a b : RosterRequest) (schedule : List Op) : World :=
  schedule.foldl (World.step a b) { stored := t, first := none, second := none }

/-- The two schedules in which one request has saved before the other reads. -/
def serialSchedules : List (List Op) :=
  [[.read .first, .save .first, .read .second, .save .second],
   [.read .second, .save .second, .read .first, .save .first]]

/-- The four schedules in which both requests read before either saves. -/
def racingSchedules : List (List Op) :=
  [[.read .first, .read .second, .save .first, .save .second],
   [.read .first, .read .second, .save .second, .save .first],
   [.read .second, .read .first, .save .first, .save .second],
   [.read .second, .read .first, .save .second, .save .first]]

/-- Whether a request has read and passed its checks. -/
def passed (pushed : Option (List Member)) : Bool :=
  match pushed with
  | some (_ :: _) => true
  | _ => false

/-! ## Sample documents -/

/-- A team led by user 10 with the single member 11 and capacity 3. -/
def sampleTeam : Team :=
  { _id := 1
    name := "Alpha"
    leader := 10
    members := [⟨11, .member, 0⟩]
    isActive := true
    status := .active
    capacity := 3
    specialization := ["rescue"]
    coordinates := [0, 0] }

/-- A team led by user 10 with no members and capacity 2. -/
def pairTeam : Team :=
  { _id := 2
    name := "Bravo"
    leader := 10
    members := []
    isActive := true
    status := .active
    capacity := 2
    specialization := ["medical"]
    coordinates := [0, 0] }

/-- A request body for `createTeam` with coordinates `[0, 0]`, no tags and the
default capacity. -/
def sampleBody : TeamBody :=
  { name := some "Charlie"
    location := some (some [0, 0])
    specialization := []
    capacity := none
    isActive := none }

/-- The team `createTeam` stores for `sampleBody` once `addMember` has run: the
creator 1 is the leader and also holds a `supervisor` entry. -/
def createdTeam : Team :=
  { _id := 7
    name := "Charlie"
    leader := 1
    members := [⟨1, .supervisor, 0⟩]
    isActive := true
    status := .active
    capacity := 10
    specialization := []
    coordinates := [0, 0] }

/-- An incident that has been cancelled by admin 1. -/
def cancelledIncident : Incident :=
  { _id := 5
    status := .cancelled
    assignedTeam := none
    acceptedBy := none
    etaMinutes := none
    cancelledBy := some 1
    cancelReason := some "duplicate" }

/-- A freshly created incident. -/
def newIncident : Incident :=
  { _id := 6
    status := .new
    assignedTeam := none
    acceptedBy := none
    etaMinutes := none
    cancelledBy := none
    cancelReason := none }

/-- A stored team that has been deactivated. -/
def inactiveTeam : Team :=
  { _id := 3
    name := "Delta"
    leader := 10
    members := []
    isActive := false
    status := .inactive
    capacity := 10
    specialization := []
    coordinates := [0, 0] }

/-- A freshly created report of user 20. -/
def pendingReport : Report :=
  { _id := 8
    user := 20
    status := .pending
    assignedTeam := none
    assignedBy := none
    assignedAt := none
    etaMinutes := none
    adminNotes := none
    resolutionNotes := none
    completedAt := none
    createdAt := 1 }

/-- A report that has been completed at time 9. -/
def completedReport : Report :=
  { _id := 9
    user := 20
    status := .completed
    assignedTeam := some 1
    assignedBy := some 1
    assignedAt := some 2
    etaMinutes := some 30
    adminNotes := none
    resolutionNotes := some "done"
    completedAt := some 9
    createdAt := 0 }

/-- An incident assigned to team 1 with an ETA of 30 minutes. -/
def assignedIncident : Incident :=
  { _id := 7
    status := .assigned
    assignedTeam := some 1
    acceptedBy := none
    etaMinutes := some 30
    cancelledBy := none
    cancelReason := none }

/-- The body `sampleBody` with capacity 1. -/
def soloBody : TeamBody :=
  { sampleBody with capacity := some 1 }

/-- The body `sampleBody` whose `location` carries no `coordinates`. -/
def noCoordinatesBody : TeamBody :=
  { sampleBody with location := some none }

/-- A valid body for `createIncident`. -/
def sampleIncidentBody : IncidentBody :=
  { title := some "Flood"
    priority := some "critical" }

/-- A valid body for `createReport`. -/
def sampleReportBody : ReportBody :=
  { disasterType := some "natural"
    disasterSubType := some "flood"
    location := some "Riverside"
    pincode := some "411001"
    description := some "Water rising"
    urgency := none }

/-- The stored user 20, owner of `pendingReport` and `completedReport`. -/
def sampleUser : User :=
  { _id := 20
    name := "Asha"
    email := "asha@example.org"
    role := .user }

/-- A stored team tagged `medical` that has been deactivated. -/
def inactiveMedics : Team :=
  { _id := 4
    name := "Echo"
    leader := 30
    members := []
    isActive := false
    status := .inactive
    capacity := 10
    specialization := ["medical"]
    coordinates := [3, 4] }

/-- A distance for examples: the sum of the absolute coordinate differences. -/
def gridDistance (a b : List Int) : ℚ :=
  (((a.getD 0 0 - b.getD 0 0).natAbs + (a.getD 1 0 - b.getD 1 0).natAbs : Nat) : ℚ)

/-- An active team stored at `[1, 2]`. -/
def northTeam : Team :=
  { _id := 5
    name := "Foxtrot"
    leader := 40
    members := []
    isActive := true
    status := .active
    capacity := 10
    specialization := ["fire"]
    coordinates := [1, 2] }

/-- An active team stored at `[100, 80]`. -/
def farTeam : Team :=
  { _id := 6
    name := "Golf"
    leader := 50
    members := []
    isActive := true
    status := .active
    capacity := 10
    specialization := ["flood"]
    coordinates := [100, 80] }

/-- The body `sampleBody` with the capacity `5/2`. -/
def fractionalBody : TeamBody :=
  { sampleBody with capacity := some (5 / 2) }

/-- The team `createTeam` stores for `fractionalBody`: capacity `5/2`, the
creator 1 as leader and as the one member. -/
def fractionalTeam : Team :=
  { createdTeam with capacity := 5 / 2 }

/-! ## Lists of member entries -/

/-- The identities that have an entry in `members`, in order. -/
def memberIds (members : List Member) : List ObjectId :=
  members.map (fun m => m.user)

/-- Roster uniqueness: the leader has no entry in `members` and no identity has
two entries. -/
def rosterUnique (t : Team) : Prop :=
  t.leader ∉ memberIds t.members ∧ (memberIds t.members).Nodup

theorem any_user_iff (members : List Member) (u : ObjectId) :
    members.any (fun m => m.user == u) = true ↔ u ∈ memberIds members := by
  simp only [memberIds, List.any_eq_true, List.mem_map, beq_iff_eq]

theorem filter_ne_eq_self_of_not_mem (members : List Member) (u : ObjectId)
    (h : u ∉ memberIds members) :
    members.filter (fun m => m.user != u) = members := by
  rw [List.filter_eq_self]
  intro m hm
  simp only [bne_iff_ne, ne_eq]
  intro hu
  exact h (List.mem_map.mpr ⟨m, hm, hu⟩)

theorem filter_ne_length_lt_of_mem (members : List Member) (u : ObjectId)
    (h : u ∈ memberIds members) :
    (members.filter (fun m => m.user != u)).length < members.length := by
  induction members with
  | nil => simp [memberIds] at h
  | cons m ms ih =>
    by_cases hm : m.user = u
    · have : (List.filter (fun m => m.user != u) (m :: ms)) = List.filter (fun m => m.user != u) ms := by
        simp [List.filter_cons, hm]
      rw [this]
      exact Nat.lt_succ_of_le (List.length_filter_le _ _)
    · have hmem : u ∈ memberIds ms := by
        simp only [memberIds, List.map_cons, List.mem_cons] at h
        rcases h with h | h
        · exact absurd h.symm hm
        · exact h
      have : (List.filter (fun m => m.user != u) (m :: ms)) = m :: List.filter (fun m => m.user != u) ms := by
        simp [List.filter_cons, hm]
      rw [this]
      simpa using ih hmem

theorem filter_ne_length_eq_iff (members : List Member) (u : ObjectId) :
    (members.filter (fun m => m.user != u)).length = members.length ↔ u ∉ memberIds members := by
  constructor
  · intro h hmem
    have := filter_ne_length_lt_of_mem members u hmem
    omega
  · intro h
    exact congrArg List.length (filter_ne_eq_self_of_not_mem members u h)

theorem filter_ne_length_succ_of_nodup (members : List Member) (u : ObjectId)
    (hnd : (memberIds members).Nodup) (h : u ∈ memberIds members) :
    (members.filter (fun m => m.user != u)).length + 1 = members.length := by
  induction members with
  | nil => simp [memberIds] at h
  | cons m ms ih =>
    have hnd2 : m.user ∉ memberIds ms ∧ (memberIds ms).Nodup := by
      simpa [memberIds] using hnd
    by_cases hm : m.user = u
    · have hnot : u ∉ memberIds ms := hm ▸ hnd2.1
      have : (List.filter (fun m => m.user != u) (m :: ms)) = List.filter (fun m => m.user != u) ms := by
        simp [List.filter_cons, hm]
      rw [this, filter_ne_eq_self_of_not_mem ms u hnot]
      rfl
    · have hmem : u ∈ memberIds ms := by
        simp only [memberIds, List.map_cons, List.mem_cons] at h
        rcases h with h | h
        · exact absurd h.symm hm
        · exact h
      have : (List.filter (fun m => m.user != u) (m :: ms)) = m :: List.filter (fun m => m.user != u) ms := by
        simp [List.filter_cons, hm]
      rw [this]
      simpa using ih hnd2.2 hmem

theorem memberIds_filter (members : List Member) (u : ObjectId) :
    memberIds (members.filter (fun m => m.user != u)) = (memberIds members).filter (fun v => v != u) := by
  induction members with
  | nil => rfl
  | cons m ms ih =>
    by_cases hm : m.user = u
    · simp [memberIds, List.filter_cons, hm] at ih ⊢
      exact ih
    · simp [memberIds, List.filter_cons, hm] at ih ⊢
      exact ih

theorem filter_ne_splits (members : List Member) (u : ObjectId)
    (hnd : (memberIds members).Nodup) (h : u ∈ memberIds members) :
    ∃ (before : List Member) (entry : Member) (after : List Member),
      members = before ++ entry :: after ∧ entry.user = u
      ∧ members.filter (fun m => m.user != u) = before ++ after := by
  induction members with
  | nil => simp [memberIds] at h
  | cons m ms ih =>
    have hnd2 : m.user ∉ memberIds ms ∧ (memberIds ms).Nodup := by
      simpa [memberIds] using hnd
    by_cases hm : m.user = u
    · have hnot : u ∉ memberIds ms := hm ▸ hnd2.1
      refine ⟨[], m, ms, rfl, hm, ?_⟩
      have : (List.filter (fun m => m.user != u) (m :: ms)) = List.filter (fun m => m.user != u) ms := by
        simp [List.filter_cons, hm]
      rw [this, filter_ne_eq_self_of_not_mem ms u hnot]
      rfl
    · have hmem : u ∈ memberIds ms := by
        simp only [memberIds, List.map_cons, List.mem_cons] at h
        rcases h with h | h
        · exact absurd h.symm hm
        · exact h
      obtain ⟨before, entry, after, h1, h2, h3⟩ := ih hnd2.2 hmem
      refine ⟨m :: before, entry, after, by rw [h1]; rfl, h2, ?_⟩
      have : (List.filter (fun m => m.user != u) (m :: ms)) = m :: List.filter (fun m => m.user != u) ms := by
        simp [List.filter_cons, hm]
      rw [this, h3]
      rfl

theorem not_mem_memberIds_filter (members : List Member) (u : ObjectId) :
    u ∉ memberIds (members.filter (fun m => m.user != u)) := by
  rw [memberIds_filter]
  simp [List.mem_filter]

/-! ## The schema methods, case by case -/

theorem addMember_of_mem (t : Team) (u : ObjectId) (role : MemberRole) (now : Nat)
    (h : u ∈ memberIds t.members) :
    addMember t u role now = ⟨some .alreadyMember, t⟩ := by
  have hany := (any_user_iff t.members u).mpr h
  simp [addMember, hany]

theorem addMember_of_full (t : Team) (u : ObjectId) (role : MemberRole) (now : Nat)
    (h : u ∉ memberIds t.members) (hc : t.capacity ≤ t.members.length + 1) :
    addMember t u role now = ⟨some .capacityReached, t⟩ := by
  have hany : t.members.any (fun m => m.user == u) = false := by
    rw [Bool.eq_false_iff]
    exact fun hh => h ((any_user_iff t.members u).mp hh)
  simp only [addMember, hany, memberCount]
  simp [hc]

theorem addMember_of_room (t : Team) (u : ObjectId) (role : MemberRole) (now : Nat)
    (h : u ∉ memberIds t.members) (hc : t.members.length + 1 < t.capacity) :
    addMember t u role now
      = ⟨none, { t with members := t.members ++ [⟨u, role, now⟩] }⟩ := by
  have hany : t.members.any (fun m => m.user == u) = false := by
    rw [Bool.eq_false_iff]
    exact fun hh => h ((any_user_iff t.members u).mp hh)
  have hc2 : ¬ t.capacity ≤ t.members.length + 1 := not_le.mpr hc
  simp only [addMember, hany, memberCount]
  simp [hc2]

theorem removeMember_of_not_mem (t : Team) (u : ObjectId) (h : u ∉ memberIds t.members) :
    removeMember t u = ⟨some .notMember, t⟩ := by
  simp [removeMember, filter_ne_eq_self_of_not_mem t.members u h]

theorem removeMember_of_mem (t : Team) (u : ObjectId) (h : u ∈ memberIds t.members) :
    removeMember t u
      = ⟨none, { t with members := t.members.filter (fun m => m.user != u) }⟩ := by
  have hlt := filter_ne_length_lt_of_mem t.members u h
  have hne : ¬ (t.members.filter (fun m => m.user != u)).length = t.members.length := by omega
  simp only [removeMember, beq_iff_eq]
  rw [if_neg hne]

theorem changeLeader_of_leader (t : Team) (now : Nat) :
    changeLeader t t.leader now = ⟨some .alreadyLeader, t⟩ := by
  simp [changeLeader]

theorem find_user_eq_none (members : List Member) (u : ObjectId)
    (h : u ∉ memberIds members) :
    members.find? (fun m => m.user == u) = none := by
  rw [List.find?_eq_none]
  intro m hm hu
  exact h (List.mem_map.mpr ⟨m, hm, by simpa using hu⟩)

theorem find_user_isSome (members : List Member) (u : ObjectId)
    (h : u ∈ memberIds members) :
    ∃ m, members.find? (fun m => m.user == u) = some m := by
  cases hf : members.find? (fun m => m.user == u) with
  | some m => exact ⟨m, rfl⟩
  | none =>
    rw [List.find?_eq_none] at hf
    obtain ⟨m, hm, hu⟩ := List.mem_map.mp h
    exact absurd (by simpa using hu) (hf m hm)

theorem changeLeader_of_not_mem (t : Team) (u : ObjectId) (now : Nat)
    (hl : u ≠ t.leader) (h : u ∉ memberIds t.members) :
    changeLeader t u now = ⟨some .notMember, t⟩ := by
  have hl2 : ¬ t.leader = u := fun e => hl e.symm
  simp [changeLeader, hl2, find_user_eq_none t.members u h]

theorem changeLeader_of_mem (t : Team) (u : ObjectId) (now : Nat)
    (hl : u ≠ t.leader) (h : u ∈ memberIds t.members) :
    changeLeader t u now
      = ⟨none, { t with
                  members := t.members.filter (fun m => m.user != u) ++ [⟨t.leader, .member, now⟩]
                  leader := u }⟩ := by
  have hl2 : ¬ t.leader = u := fun e => hl e.symm
  obtain ⟨m, hm⟩ := find_user_isSome t.members u h
  simp [changeLeader, hl2, hm, List.filter_append, List.filter_cons]

/-- Roster uniqueness is kept by `removeMember`, by `changeLeader`, and by
`addMember` for an identity other than the leader. -/
theorem rosterUnique_preserved (t : Team) (h : rosterUnique t) :
    (∀ (u : ObjectId) (role : MemberRole) (now : Nat), u ≠ t.leader →
        rosterUnique (addMember t u role now).doc)
    ∧ (∀ (u : ObjectId), rosterUnique (removeMember t u).doc)
    ∧ (∀ (u : ObjectId) (now : Nat), rosterUnique (changeLeader t u now).doc) := by
  obtain ⟨hL, hnd⟩ := h
  refine ⟨?_, ?_, ?_⟩
  · intro u role now hu
    by_cases hm : u ∈ memberIds t.members
    · rw [addMember_of_mem t u role now hm]
      exact ⟨hL, hnd⟩
    · by_cases hc : t.capacity ≤ t.members.length + 1
      · rw [addMember_of_full t u role now hm hc]
        exact ⟨hL, hnd⟩
      · rw [addMember_of_room t u role now hm (not_le.mp hc)]
        have hids : memberIds (t.members ++ [(⟨u, role, now⟩ : Member)])
            = memberIds t.members ++ [u] := by
          simp [memberIds]
        refine ⟨?_, ?_⟩
        · show t.leader ∉ memberIds (t.members ++ [_])
          rw [hids, List.mem_append, List.mem_singleton]
          rintro (h1 | h1)
          · exact hL h1
          · exact hu h1.symm
        · show (memberIds (t.members ++ [_])).Nodup
          rw [hids, List.nodup_append]
          refine ⟨hnd, List.nodup_singleton u, ?_⟩
          intro a ha hb
          rw [List.mem_singleton] at hb
          exact hm (hb ▸ ha)
  · intro u
    by_cases hm : u ∈ memberIds t.members
    · rw [removeMember_of_mem t u hm]
      refine ⟨?_, ?_⟩
      · show t.leader ∉ memberIds (t.members.filter _)
        rw [memberIds_filter]
        exact fun hh => hL (List.mem_filter.mp hh).1
      · show (memberIds (t.members.filter _)).Nodup
        rw [memberIds_filter]
        exact hnd.filter _
    · rw [removeMember_of_not_mem t u hm]
      exact ⟨hL, hnd⟩
  · intro u now
    by_cases hl : u = t.leader
    · subst hl
      rw [changeLeader_of_leader]
      exact ⟨hL, hnd⟩
    · by_cases hm : u ∈ memberIds t.members
      · rw [changeLeader_of_mem t u now hl hm]
        have hids : memberIds
            (t.members.filter (fun m => m.user != u) ++ [(⟨t.leader, .member, now⟩ : Member)])
            = (memberIds t.members).filter (fun v => v != u) ++ [t.leader] := by
          rw [← memberIds_filter]
          simp [memberIds]
        refine ⟨?_, ?_⟩
        · show u ∉ memberIds (t.members.filter _ ++ [_])
          rw [hids, List.mem_append, List.mem_singleton]
          rintro (h1 | h1)
          · simp [List.mem_filter] at h1
          · exact hl h1
        · show (memberIds (t.members.filter _ ++ [_])).Nodup
          rw [hids, List.nodup_append]
          refine ⟨hnd.filter _, List.nodup_singleton _, ?_⟩
          intro a ha hb
          rw [List.mem_singleton] at hb
          exact hL (hb ▸ (List.mem_filter.mp ha).1)
      · rw [changeLeader_of_not_mem t u now hl hm]
        exact ⟨hL, hnd⟩

/-! ## The team collection -/

theorem team_findById_id (teams : List Team) (id : ObjectId) (t : Team)
    (h : Team.findById teams id = some t) : t._id = id := by
  have := List.find?_some h
  simpa using this

theorem team_findById_save (teams : List Team) (id : ObjectId) (t doc : Team)
    (h : Team.findById teams id = some t) (hd : doc._id = id) :
    Team.findById (Team.save teams doc) id = some doc := by
  induction teams with
  | nil => simp [Team.findById] at h
  | cons x xs ih =>
    by_cases hx : x._id = id
    · simp [Team.findById, Team.save, List.find?_cons, hx, hd]
    · have h2 : Team.findById xs id = some t := by
        simpa [Team.findById, List.find?_cons, hx] using h
      have h3 := ih h2
      have hx2 : (x._id == doc._id) = false := by simp [hd, hx]
      unfold Team.findById Team.save at h3 ⊢
      rw [List.map_cons, hx2, if_neg (by decide), List.find?_cons_of_neg]
      · exact h3
      · simp [hx]

/-! ## The self-service handlers on a stored team -/

theorem joinTeam_found (teams : List Team) (user : Principal) (teamId : ObjectId) (now : Nat)
    (t : Team) (hf : Team.findById teams teamId = some t) :
    joinTeam teams user teamId now =
      if t.leader = user._id then
        (.failure 400 "You are already the leader of this team", teams)
      else if user._id ∈ memberIds t.members then
        (.failure 400 "You are already a member of this team", teams)
      else if t.capacity ≤ t.members.length + 1 then
        (.failure 400 "Team has reached maximum capacity", teams)
      else
        (.success 200 (),
          Team.save teams { t with members := t.members ++ [⟨user._id, .member, now⟩] }) := by
  unfold joinTeam
  rw [hf]
  by_cases hl : t.leader = user._id
  · simp [hl]
  · by_cases hm : user._id ∈ memberIds t.members
    · have hany := (any_user_iff t.members user._id).mpr hm
      simp [hl, hm, hany]
    · have hany : t.members.any (fun m => m.user == user._id) = false := by
        rw [Bool.eq_false_iff]
        exact fun hh => hm ((any_user_iff t.members user._id).mp hh)
      have hcount : ((memberCount t : ℕ) : ℚ) = (t.members.length : ℚ) + 1 := by
        simp [memberCount]
      by_cases hc : t.capacity ≤ t.members.length + 1
      · have hfull : ((memberCount t : ℕ) : ℚ) ≥ t.capacity := by
          rw [hcount]
          exact hc
        simp only [beq_iff_eq, hl, if_false, hany, hm, hfull, hc, if_true]
        simp
      · have hroom : t.members.length + 1 < t.capacity := not_le.mp hc
        have hfree : ¬ ((memberCount t : ℕ) : ℚ) ≥ t.capacity := by
          rw [hcount]
          exact hc
        simp only [beq_iff_eq, hl, if_false, hany, hm, hfree, hc]
        rw [addMember_of_room t user._id .member now hm hroom]
        simp

theorem leaveTeam_found (teams : List Team) (user : Principal) (teamId : ObjectId)
    (t : Team) (hf : Team.findById teams teamId = some t) :
    leaveTeam teams user teamId =
      if t.leader = user._id then
        (.failure 400 "Team leader cannot leave the team. Transfer leadership first.", teams)
      else if user._id ∉ memberIds t.members then
        (.failure 400 "You are not a member of this team", teams)
      else
        (.success 200 (),
          Team.save teams { t with members := t.members.filter (fun m => m.user != user._id) }) := by
  unfold leaveTeam
  rw [hf]
  by_cases hl : t.leader = user._id
  · simp [hl]
  · by_cases hm : user._id ∈ memberIds t.members
    · have hany := (any_user_iff t.members user._id).mpr hm
      simp only [beq_iff_eq, hl, if_false, hany, hm]
      rw [removeMember_of_mem t user._id hm]
      simp
    · have hany : t.members.any (fun m => m.user == user._id) = false := by
        rw [Bool.eq_false_iff]
        exact fun hh => hm ((any_user_iff t.members user._id).mp hh)
      simp [hl, hm, hany]

/-! ## The incident and report collections -/

theorem incident_findById_id (incidents : List Incident) (id : ObjectId) (i : Incident)
    (h : Incident.findById incidents id = some i) : i._id = id := by
  have := List.find?_some h
  simpa using this

theorem incident_findById_save (incidents : List Incident) (id : ObjectId) (i doc : Incident)
    (h : Incident.findById incidents id = some i) (hd : doc._id = id) :
    Incident.findById (Incident.save incidents doc) id = some doc := by
  induction incidents with
  | nil => simp [Incident.findById] at h
  | cons x xs ih =>
    by_cases hx : x._id = id
    · simp [Incident.findById, Incident.save, List.find?_cons, hx, hd]
    · have h2 : Incident.findById xs id = some i := by
        simpa [Incident.findById, List.find?_cons, hx] using h
      have h3 := ih h2
      have hx2 : (x._id == doc._id) = false := by simp [hd, hx]
      unfold Incident.findById Incident.save at h3 ⊢
      rw [List.map_cons, hx2, if_neg (by decide), List.find?_cons_of_neg]
      · exact h3
      · simp [hx]

theorem report_findById_id (reports : List Report) (id : ObjectId) (r : Report)
    (h : Report.findById reports id = some r) : r._id = id := by
  have := List.find?_some h
  simpa using this

theorem report_findById_save (reports : List Report) (id : ObjectId) (r doc : Report)
    (h : Report.findById reports id = some r) (hd : doc._id = id) :
    Report.findById (Report.save reports doc) id = some doc := by
  induction reports with
  | nil => simp [Report.findById] at h
  | cons x xs ih =>
    by_cases hx : x._id = id
    · simp [Report.findById, Report.save, List.find?_cons, hx, hd]
    · have h2 : Report.findById xs id = some r := by
        simpa [Report.findById, List.find?_cons, hx] using h
      have h3 := ih h2
      have hx2 : (x._id == doc._id) = false := by simp [hd, hx]
      unfold Report.findById Report.save at h3 ⊢
      rw [List.map_cons, hx2, if_neg (by decide), List.find?_cons_of_neg]
      · exact h3
      · simp [hx]

/-! ## The case handlers on a stored case -/

theorem assignTeam_found (teams : List Team) (incidents : List Incident) (user : Principal)
    (incidentId T : ObjectId) (e : Option Int) (team : Team) (i : Incident)
    (hadmin : user.role = .admin) (hT : Team.findById teams T = some team)
    (hi : Incident.findById incidents incidentId = some i) :
    assignTeam teams incidents user incidentId (some T) e =
      (.success 200
          { i with
            assignedTeam := some T
            status := .assigned
            etaMinutes := if e.isSome then e else i.etaMinutes },
        Incident.save incidents
          { i with
            assignedTeam := some T
            status := .assigned
            etaMinutes := if e.isSome then e else i.etaMinutes }) := by
  simp [assignTeam, hadmin, hT, Incident.findByIdAndUpdate, hi]

theorem assignTeam_unresolved (teams : List Team) (incidents : List Incident) (user : Principal)
    (incidentId : ObjectId) (teamId : Option ObjectId) (e : Option Int)
    (hT : teamId.bind (Team.findById teams) = none) :
    assignTeam teams incidents user incidentId teamId e =
      if user.role = .admin then (.failure 404 "Team not found", incidents)
      else (.failure 403 "Only admin can assign", incidents) := by
  unfold assignTeam
  rw [hT]
  by_cases hadmin : user.role = .admin
  · simp [hadmin]
  · simp [hadmin]

theorem acceptIncident_found (incidents : List Incident) (incidentId : ObjectId)
    (teamId : Option ObjectId) (e : Option Int) (i : Incident)
    (hi : Incident.findById incidents incidentId = some i) :
    acceptIncident incidents incidentId teamId e =
      (.success 200
          { i with
            status := .accepted
            acceptedBy := if teamId.isSome then teamId else i.assignedTeam
            etaMinutes := if truthy e then e else i.etaMinutes },
        Incident.save incidents
          { i with
            status := .accepted
            acceptedBy := if teamId.isSome then teamId else i.assignedTeam
            etaMinutes := if truthy e then e else i.etaMinutes }) := by
  unfold acceptIncident
  rw [hi]
  by_cases he : truthy e = true
  · simp [he]
  · simp [he]

theorem cancelIncident_found (incidents : List Incident) (user : Principal)
    (incidentId : ObjectId) (reason : Option String) (i : Incident)
    (hadmin : user.role = .admin)
    (hi : Incident.findById incidents incidentId = some i) :
    cancelIncident incidents user incidentId reason =
      (.success 200
          { i with
            status := .cancelled
            cancelReason := if reason.isSome then reason else i.cancelReason
            cancelledBy := some user._id },
        Incident.save incidents
          { i with
            status := .cancelled
            cancelReason := if reason.isSome then reason else i.cancelReason
            cancelledBy := some user._id }) := by
  simp [cancelIncident, hadmin, Incident.findByIdAndUpdate, hi]

theorem assignReport_found (reports : List Report) (user : Principal) (id : ObjectId)
    (teamId : Option ObjectId) (e : Option Int) (adminNotes : Option String) (now : Nat)
    (r : Report) (hr : Report.findById reports id = some r) :
    assignReport reports user id teamId e adminNotes now =
      (.success 200
          { r with
            assignedTeam := teamId
            assignedBy := some user._id
            assignedAt := some now
            etaMinutes := e
            adminNotes := if adminNotes.isSome then adminNotes else r.adminNotes
            status := .live },
        Report.save reports
          { r with
            assignedTeam := teamId
            assignedBy := some user._id
            assignedAt := some now
            etaMinutes := e
            adminNotes := if adminNotes.isSome then adminNotes else r.adminNotes
            status := .live }) := by
  unfold assignReport
  rw [hr]
  by_cases hn : adminNotes.isSome = true
  · simp [hn]
  · simp [hn]

theorem updateReportStatus_found (reports : List Report) (id : ObjectId) (status : String)
    (notes : Option String) (now : Nat) (st : ReportStatus) (r : Report)
    (hs : allowedStatus status = some st) (hr : Report.findById reports id = some r) :
    updateReportStatus reports id status notes now =
      (.success 200
          { r with
            status := st
            resolutionNotes := if notes.isSome then notes else r.resolutionNotes
            completedAt := if st = .completed then some now else r.completedAt },
        Report.save reports
          { r with
            status := st
            resolutionNotes := if notes.isSome then notes else r.resolutionNotes
            completedAt := if st = .completed then some now else r.completedAt }) := by
  unfold updateReportStatus
  rw [hs, hr]
  by_cases hn : notes.isSome = true
  · by_cases hc : st = .completed
    · simp [hn, hc]
    · simp [hn, hc]
  · by_cases hc : st = .completed
    · simp [hn, hc]
    · simp [hn, hc]

/-! ## Claims -/

/-- With a whole capacity `n`, `k + 1 ≤ capacity` is a comparison of natural
numbers. -/
theorem occupancy_le_whole (t : Team) (n : Nat) (hn : t.capacity = (n : ℚ)) (k : Nat) :
    (k : ℚ) + 1 ≤ t.capacity ↔ k + 1 ≤ n := by
  rw [hn]
  exact_mod_cast Iff.rfl

theorem occupancy_lt_whole (t : Team) (n : Nat) (hn : t.capacity = (n : ℚ)) (k : Nat) :
    (k : ℚ) + 1 < t.capacity ↔ k + 1 < n := by
  rw [hn]
  exact_mod_cast Iff.rfl

/-- What `createTeam` does for a permitted creator once the body passes
validation: the team is stored, then `addMember` runs for the creator. -/
theorem createTeam_of_valid (teams : List Team) (user : Principal) (body : TeamBody)
    (newId : ObjectId) (now : Nat) (location : Option (List Int))
    (hrole : user.role = .admin ∨ user.role = .rescue) (hloc : body.location = some location)
    (hvalid : (body.name.getD "" != ""
        && coordinatesValid (location.getD [0, 0])
        && body.specialization.all (fun s => specializationEnum.contains s)
        && decide (body.capacity.getD 10 ≥ 1)) = true) :
    createTeam teams user body newId now =
      match addMember
          { _id := newId
            name := body.name.getD ""
            leader := user._id
            members := []
            isActive := body.isActive.getD true
            status := .active
            capacity := body.capacity.getD 10
            specialization := body.specialization
            coordinates := location.getD [0, 0] } user._id .supervisor now with
      | ⟨some e, _⟩ =>
        (.thrown e, teams ++
          [{ _id := newId
             name := body.name.getD ""
             leader := user._id
             members := []
             isActive := body.isActive.getD true
             status := .active
             capacity := body.capacity.getD 10
             specialization := body.specialization
             coordinates := location.getD [0, 0] }])
      | ⟨none, doc⟩ =>
        (.success 201 doc, Team.save (teams ++
          [{ _id := newId
             name := body.name.getD ""
             leader := user._id
             members := []
             isActive := body.isActive.getD true
             status := .active
             capacity := body.capacity.getD 10
             specialization := body.specialization
             coordinates := location.getD [0, 0] }]) doc) := by
  have hr : (user.role != .admin && user.role != .rescue) = false := by
    rcases hrole with h | h <;> simp [h]
  unfold createTeam
  rw [hr, hloc]
  simp only [Bool.false_eq_true, if_false]
  rw [hvalid]
  rfl

/-- C1 (capacity invariant), refuted on the code.  `createTeam` accepts the
capacity `5/2` (the schema checks `min: 1` only) and stores the team with the
creator as its one member, so `members.length + 1 = 2 ≤ 5/2`.  `addMember` for
user 12 then finds `2 ≥ 5/2` false, appends, and leaves
`members.length + 1 = 3 > 5/2`. -/
theorem fractional_capacity_overfilled :
    createTeam [] ⟨1, .admin⟩ fractionalBody 7 0
      = (.success 201 fractionalTeam, [fractionalTeam])
    ∧ (fractionalTeam.members.length : ℚ) + 1 ≤ fractionalTeam.capacity
    ∧ (addMember fractionalTeam 12 .member 5).thrown = none
    ∧ ¬ (((addMember fractionalTeam 12 .member 5).doc.members.length : ℚ) + 1
          ≤ (addMember fractionalTeam 12 .member 5).doc.capacity) := by
  have hadd : addMember fractionalTeam 12 .member 5
      = ⟨none, { fractionalTeam with
                  members := fractionalTeam.members ++ [⟨12, .member, 5⟩] }⟩ := by
    apply addMember_of_room
    · decide
    · norm_num [fractionalTeam, createdTeam]
  have hcreator : addMember
        { createdTeam with members := [], capacity := 5 / 2 } 1 .supervisor 0
      = ⟨none, fractionalTeam⟩ := by
    rw [addMember_of_room _ 1 .supervisor 0 (by decide) (by norm_num)]
    rfl
  have hvalid : ((fractionalBody.name.getD "" != "")
      && coordinatesValid ((some [0, 0] : Option (List Int)).getD [0, 0])
      && fractionalBody.specialization.all (fun s => specializationEnum.contains s)
      && decide (fractionalBody.capacity.getD 10 ≥ 1)) = true := by
    have h1 : (fractionalBody.name.getD "" != "") = true := by decide
    have h2 : coordinatesValid ((some [0, 0] : Option (List Int)).getD [0, 0]) = true := by
      decide
    have h3 : fractionalBody.specialization.all (fun s => specializationEnum.contains s)
        = true := by decide
    have h4 : decide (fractionalBody.capacity.getD 10 ≥ 1) = true := by
      rw [decide_eq_true_eq]
      norm_num [fractionalBody]
    rw [h1, h2, h3, h4]
    rfl
  refine ⟨?_, ?_, ?_, ?_⟩
  · rw [createTeam_of_valid [] ⟨1, .admin⟩ fractionalBody 7 0 (some [0, 0]) (Or.inl rfl) rfl
      hvalid]
    exact (by rw [hcreator]; rfl :
      (match addMember { createdTeam with members := [], capacity := 5 / 2 } 1 .supervisor 0 with
        | ⟨some e, _⟩ =>
          (Reply.thrown e, [] ++ [{ createdTeam with members := [], capacity := 5 / 2 }])
        | ⟨none, doc⟩ =>
          (Reply.success 201 doc,
            Team.save ([] ++ [{ createdTeam with members := [], capacity := 5 / 2 }]) doc))
      = (Reply.success 201 fractionalTeam, [fractionalTeam]))
  · norm_num [fractionalTeam, createdTeam]
  · rw [hadd]
  · rw [hadd]
    norm_num [fractionalTeam, createdTeam]

/-- C1 as amended (capacity invariant for a whole capacity).  On a team whose
capacity is a whole number and with `members.length + 1 ≤ capacity`, every call
of `addMember`, `removeMember` or `changeLeader` that throws nothing leaves a
document with `members.length + 1 ≤ capacity`, and every call that throws
leaves the document equal to the one it started from; every `joinTeam` or
`leaveTeam` request on the stored team that succeeds stores a team with
`members.length + 1 ≤ capacity`, and every one that fails leaves the collection
as it was. -/
theorem capacity_invariant (t : Team) (n : Nat) (hn : t.capacity = (n : ℚ))
    (h : (t.members.length : ℚ) + 1 ≤ t.capacity) :
    (∀ (u : ObjectId) (role : MemberRole) (now : Nat),
        ((addMember t u role now).thrown = none →
          ((addMember t u role now).doc.members.length : ℚ) + 1
            ≤ (addMember t u role now).doc.capacity)
        ∧ ((addMember t u role now).thrown ≠ none → (addMember t u role now).doc = t))
    ∧ (∀ (u : ObjectId),
        ((removeMember t u).thrown = none →
          ((removeMember t u).doc.members.length : ℚ) + 1 ≤ (removeMember t u).doc.capacity)
        ∧ ((removeMember t u).thrown ≠ none → (removeMember t u).doc = t))
    ∧ (∀ (u : ObjectId) (now : Nat),
        ((changeLeader t u now).thrown = none →
          ((changeLeader t u now).doc.members.length : ℚ) + 1
            ≤ (changeLeader t u now).doc.capacity)
        ∧ ((changeLeader t u now).thrown ≠ none → (changeLeader t u now).doc = t))
    ∧ (∀ (teams : List Team) (user : Principal) (teamId : ObjectId) (now : Nat),
        Team.findById teams teamId = some t →
        ((joinTeam teams user teamId now).1.isSuccess = true →
          ∃ t1, Team.findById (joinTeam teams user teamId now).2 teamId = some t1
            ∧ (t1.members.length : ℚ) + 1 ≤ t1.capacity)
        ∧ ((joinTeam teams user teamId now).1.isSuccess = false →
          (joinTeam teams user teamId now).2 = teams))
    ∧ (∀ (teams : List Team) (user : Principal) (teamId : ObjectId),
        Team.findById teams teamId = some t →
        ((leaveTeam teams user teamId).1.isSuccess = true →
          ∃ t1, Team.findById (leaveTeam teams user teamId).2 teamId = some t1
            ∧ (t1.members.length : ℚ) + 1 ≤ t1.capacity)
        ∧ ((leaveTeam teams user teamId).1.isSuccess = false →
          (leaveTeam teams user teamId).2 = teams)) := by
  have hN : t.members.length + 1 ≤ n := (occupancy_le_whole t n hn _).mp h
  have hgrow : ∀ (e : Member), t.members.length + 1 < n →
      (((t.members ++ [e]).length : ℕ) : ℚ) + 1 ≤ t.capacity := by
    intro e hroom
    apply (occupancy_le_whole t n hn _).mpr
    rw [List.length_append, List.length_singleton]
    omega
  have hshrink : ∀ (u : ObjectId),
      (((t.members.filter (fun m => m.user != u)).length : ℕ) : ℚ) + 1 ≤ t.capacity := by
    intro u
    apply (occupancy_le_whole t n hn _).mpr
    have := List.length_filter_le (fun m : Member => m.user != u) t.members
    omega
  have hswap : ∀ (u : ObjectId) (e : Member), u ∈ memberIds t.members →
      (((t.members.filter (fun m => m.user != u) ++ [e]).length : ℕ) : ℚ) + 1 ≤ t.capacity := by
    intro u e hm
    apply (occupancy_le_whole t n hn _).mpr
    have hlt := filter_ne_length_lt_of_mem t.members u hm
    rw [List.length_append, List.length_singleton]
    omega
  refine ⟨?_, ?_, ?_, ?_, ?_⟩
  · intro u role now
    by_cases hm : u ∈ memberIds t.members
    · rw [addMember_of_mem t u role now hm]
      simp
    · by_cases hc : t.capacity ≤ t.members.length + 1
      · rw [addMember_of_full t u role now hm hc]
        simp
      · have hroom : t.members.length + 1 < t.capacity := not_le.mp hc
        rw [addMember_of_room t u role now hm hroom]
        exact ⟨fun _ => hgrow _ ((occupancy_lt_whole t n hn _).mp hroom),
          fun hh => absurd rfl hh⟩
  · intro u
    by_cases hm : u ∈ memberIds t.members
    · rw [removeMember_of_mem t u hm]
      exact ⟨fun _ => hshrink u, fun hh => absurd rfl hh⟩
    · rw [removeMember_of_not_mem t u hm]
      simp
  · intro u now
    by_cases hl : u = t.leader
    · subst hl
      rw [changeLeader_of_leader]
      simp
    · by_cases hm : u ∈ memberIds t.members
      · rw [changeLeader_of_mem t u now hl hm]
        exact ⟨fun _ => hswap u _ hm, fun hh => absurd rfl hh⟩
      · rw [changeLeader_of_not_mem t u now hl hm]
        simp
  · intro teams user teamId now hf
    have hid := team_findById_id teams teamId t hf
    rw [joinTeam_found teams user teamId now t hf]
    by_cases hl : t.leader = user._id
    · simp [hl, Reply.isSuccess]
    · by_cases hm : user._id ∈ memberIds t.members
      · simp [hl, hm, Reply.isSuccess]
      · by_cases hc : t.capacity ≤ t.members.length + 1
        · simp [hl, hm, hc, Reply.isSuccess]
        · have hroom : t.members.length + 1 < t.capacity := not_le.mp hc
          simp only [hl, hm, hc, if_false, Reply.isSuccess]
          refine ⟨fun _ => ?_, fun hh => by simp at hh⟩
          exact ⟨_, team_findById_save teams teamId t _ hf hid,
            hgrow _ ((occupancy_lt_whole t n hn _).mp hroom)⟩
  · intro teams user teamId hf
    have hid := team_findById_id teams teamId t hf
    rw [leaveTeam_found teams user teamId t hf]
    by_cases hl : t.leader = user._id
    · simp [hl, Reply.isSuccess]
    · by_cases hm : user._id ∈ memberIds t.members
      · simp only [hl, hm, if_false, not_true_eq_false, Reply.isSuccess]
        refine ⟨fun _ => ?_, fun hh => by simp at hh⟩
        exact ⟨_, team_findById_save teams teamId t _ hf hid, hshrink user._id⟩
      · simp [hl, hm, Reply.isSuccess]

/-- Witness of the amended C1 on `sampleTeam` (capacity 3): adding user 12
succeeds and keeps `members.length + 1 ≤ capacity`. -/
theorem capacity_invariant_witness :
    (addMember sampleTeam 12 .member 5).thrown = none
    ∧ ((addMember sampleTeam 12 .member 5).doc.members.length : ℚ) + 1
        ≤ (addMember sampleTeam 12 .member 5).doc.capacity :=
  have hthrown : (addMember sampleTeam 12 .member 5).thrown = none := by
    rw [addMember_of_room sampleTeam 12 .member 5 (by decide) (by norm_num [sampleTeam])]
  ⟨hthrown,
    ((capacity_invariant sampleTeam 3 (by norm_num [sampleTeam]) (by norm_num [sampleTeam])).1
      12 .member 5).1 hthrown⟩

/-- C2 (roster uniqueness), evaluated on the code.  `createTeam` by user 1 on an
empty collection stores a team whose leader 1 also has an entry in `members`;
after user 2 is added and made leader through `changeLeader`, user 1 has two
entries in `members`. -/
theorem createTeam_breaks_roster_uniqueness :
    createTeam [] ⟨1, .admin⟩ sampleBody 7 0 = (.success 201 createdTeam, [createdTeam])
    ∧ createdTeam.leader ∈ memberIds createdTeam.members
    ∧ (addMember createdTeam 2 .member 1).thrown = none
    ∧ (changeLeader (addMember createdTeam 2 .member 1).doc 2 2).thrown = none
    ∧ memberIds (changeLeader (addMember createdTeam 2 .member 1).doc 2 2).doc.members = [1, 1]
    ∧ ¬ (memberIds (changeLeader (addMember createdTeam 2 .member 1).doc 2 2).doc.members).Nodup := by
  refine ⟨by decide, by decide, by decide, by decide, by decide, by decide⟩

/-- C3 (changeLeader effect).  On a team with leader `L` whose members hold each
identity at most once and do not hold `L`, `changeLeader(M)` for a member
`M ≠ L` throws nothing and leaves leader `M`, an entry for `L` with role
`member`, no entry for `M`, all other entries unchanged and in their order, and
`members.length` and the occupancy unchanged. -/
theorem changeLeader_effect (t : Team) (M : ObjectId) (now : Nat)
    (hnd : (memberIds t.members).Nodup) (hL : t.leader ∉ memberIds t.members)
    (hne : M ≠ t.leader) (hM : M ∈ memberIds t.members) :
    (changeLeader t M now).thrown = none
    ∧ (changeLeader t M now).doc.leader = M
    ∧ (⟨t.leader, .member, now⟩ : Member) ∈ (changeLeader t M now).doc.members
    ∧ M ∉ memberIds (changeLeader t M now).doc.members
    ∧ (changeLeader t M now).doc.members
        = t.members.filter (fun m => m.user != M) ++ [⟨t.leader, .member, now⟩]
    ∧ (changeLeader t M now).doc.members.filter (fun m => m.user != t.leader)
        = t.members.filter (fun m => m.user != M)
    ∧ (changeLeader t M now).doc.members.length = t.members.length
    ∧ memberCount (changeLeader t M now).doc = memberCount t := by
  rw [changeLeader_of_mem t M now hne hM]
  have hlen := filter_ne_length_succ_of_nodup t.members M hnd hM
  have hLf : t.leader ∉ memberIds (t.members.filter (fun m => m.user != M)) := by
    rw [memberIds_filter]
    exact fun hh => hL (List.mem_filter.mp hh).1
  refine ⟨rfl, rfl, ?_, ?_, rfl, ?_, ?_, ?_⟩
  · show _ ∈ t.members.filter _ ++ [_]
    simp
  · show M ∉ memberIds (t.members.filter _ ++ [_])
    intro hh
    simp only [memberIds, List.map_append, List.mem_append, List.map_cons, List.map_nil,
      List.mem_singleton] at hh
    rcases hh with hh | hh
    · exact not_mem_memberIds_filter t.members M hh
    · exact hne hh
  · show (t.members.filter _ ++ [_]).filter _ = _
    rw [List.filter_append, filter_ne_eq_self_of_not_mem _ _ hLf]
    simp
  · show (t.members.filter _ ++ [_]).length = _
    rw [List.length_append, List.length_singleton]
    exact hlen
  · show (t.members.filter _ ++ [_]).length + 1 = t.members.length + 1
    rw [List.length_append, List.length_singleton, hlen]

/-- Witness of C3 on `sampleTeam`: the member 11 takes over from the leader 10. -/
theorem changeLeader_effect_witness :
    (changeLeader sampleTeam 11 4).doc.leader = 11
    ∧ (changeLeader sampleTeam 11 4).doc.members = [⟨10, .member, 4⟩] :=
  ⟨(changeLeader_effect sampleTeam 11 4 (by decide) (by decide) (by decide) (by decide)).2.1,
    by decide⟩

/-- C4 (changeLeader fails all-or-nothing).  `changeLeader(X)` throws the
already-leader error when `X` is the leader and otherwise the not-member error
when `X` has no entry in `members`; a call that throws leaves the document as it
was, a call that does not throw changes both the leader and the members list, so
the leader is unchanged exactly when the members list is. -/
theorem changeLeader_all_or_nothing (t : Team) (X : ObjectId) (now : Nat) :
    (X = t.leader → changeLeader t X now = ⟨some .alreadyLeader, t⟩)
    ∧ (X ≠ t.leader → X ∉ memberIds t.members →
        changeLeader t X now = ⟨some .notMember, t⟩)
    ∧ ((changeLeader t X now).thrown ≠ none → (changeLeader t X now).doc = t)
    ∧ ((changeLeader t X now).thrown = none →
        (changeLeader t X now).doc.leader ≠ t.leader
        ∧ (changeLeader t X now).doc.members ≠ t.members)
    ∧ ((changeLeader t X now).doc.leader = t.leader
        ↔ (changeLeader t X now).doc.members = t.members) := by
  by_cases hl : X = t.leader
  · subst hl
    rw [changeLeader_of_leader]
    simp
  · by_cases hm : X ∈ memberIds t.members
    · rw [changeLeader_of_mem t X now hl hm]
      have hlead : ¬ X = t.leader := hl
      have hmem : ¬ (t.members.filter (fun m => m.user != X) ++ [(⟨t.leader, .member, now⟩ : Member)]
          = t.members) := by
        intro hh
        have hX : X ∉ memberIds
            (t.members.filter (fun m => m.user != X) ++ [(⟨t.leader, .member, now⟩ : Member)]) := by
          intro h2
          simp only [memberIds, List.map_append, List.mem_append, List.map_cons, List.map_nil,
            List.mem_singleton] at h2
          rcases h2 with h2 | h2
          · exact not_mem_memberIds_filter t.members X h2
          · exact hl h2
        rw [hh] at hX
        exact hX hm
      refine ⟨fun h => absurd h hl, fun _ h => absurd hm h, fun h => absurd rfl h,
        fun _ => ⟨hlead, hmem⟩, ?_⟩
      exact ⟨fun h => absurd h hlead, fun h => absurd h hmem⟩
    · rw [changeLeader_of_not_mem t X now hl hm]
      simp [hl]

/-- Witness of C4 on `sampleTeam`: user 12 is neither leader nor member, the call
throws the not-member error and the document is unchanged. -/
theorem changeLeader_all_or_nothing_witness :
    changeLeader sampleTeam 12 4 = ⟨some .notMember, sampleTeam⟩ :=
  (changeLeader_all_or_nothing sampleTeam 12 4).2.1 (by decide) (by decide)

/-- C5 (addMember and the leader), evaluated on the code.  On `pairTeam`, whose
leader is user 10 and whose members are empty, `addMember(10)` throws nothing
and appends an entry for the leader; the handler `addTeamMember`, called by the
leader for the leader, succeeds and stores that team. -/
theorem addMember_accepts_leader :
    pairTeam.leader = 10
    ∧ addMember pairTeam 10 .member 3
        = ⟨none, { pairTeam with members := [⟨10, .member, 3⟩] }⟩
    ∧ addTeamMember [pairTeam] [10, 11] ⟨10, .rescue⟩ 2 10 .member 3
        = (.success 200 (), [{ pairTeam with members := [⟨10, .member, 3⟩] }]) := by
  refine ⟨by decide, by decide, by decide⟩

/-- C6 (addMember capacity rule).  For an identity that is neither the leader
nor in `members`, `addMember` throws the capacity error exactly when
`members.length + 1 ≥ capacity`, leaving the document as it was, and otherwise
appends the one entry `{identity, role}` at the end, leaving every other field
and all earlier entries unchanged; a team with capacity 2 and no members accepts
this call and rejects the next one for another identity. -/
theorem addMember_capacity_rule (t : Team) (u : ObjectId) (role : MemberRole) (now : Nat)
    (_hl : u ≠ t.leader) (hm : u ∉ memberIds t.members) :
    ((addMember t u role now).thrown = some .capacityReached
        ↔ t.members.length + 1 ≥ t.capacity)
    ∧ (t.members.length + 1 ≥ t.capacity →
        addMember t u role now = ⟨some .capacityReached, t⟩)
    ∧ (¬ t.members.length + 1 ≥ t.capacity →
        addMember t u role now
          = ⟨none, { t with members := t.members ++ [⟨u, role, now⟩] }⟩)
    ∧ (t.capacity = 2 → t.members = [] →
        (addMember t u role now).thrown = none
        ∧ ∀ (v : ObjectId) (role2 : MemberRole) (now2 : Nat), v ≠ u →
            addMember (addMember t u role now).doc v role2 now2
              = ⟨some .capacityReached, (addMember t u role now).doc⟩) := by
  refine ⟨?_, ?_, ?_, ?_⟩
  · by_cases hc : t.capacity ≤ t.members.length + 1
    · rw [addMember_of_full t u role now hm hc]
      simp [hc]
    · rw [addMember_of_room t u role now hm (not_le.mp hc)]
      simp [hc]
  · intro hc
    exact addMember_of_full t u role now hm hc
  · intro hc
    exact addMember_of_room t u role now hm (not_le.mp hc)
  · intro hcap hnil
    have hroom : t.members.length + 1 < t.capacity := by rw [hcap, hnil]; norm_num
    rw [addMember_of_room t u role now hm hroom]
    refine ⟨rfl, ?_⟩
    intro v role2 now2 hv
    apply addMember_of_full
    · show v ∉ memberIds (t.members ++ [_])
      rw [hnil]
      simp [memberIds, hv]
    · show t.capacity ≤ ((t.members ++ [_]).length : ℚ) + 1
      rw [hcap, hnil]
      norm_num

/-- Witness of C6 on `pairTeam` (capacity 2, no members): user 11 is added, user
12 is then rejected with the capacity error. -/
theorem addMember_capacity_rule_witness :
    (addMember pairTeam 11 .member 3).thrown = none
    ∧ (addMember pairTeam 11 .member 3).doc.members = [⟨11, .member, 3⟩]
    ∧ addMember (addMember pairTeam 11 .member 3).doc 12 .member 4
        = ⟨some .capacityReached, (addMember pairTeam 11 .member 3).doc⟩ :=
  ⟨((addMember_capacity_rule pairTeam 11 .member 3 (by decide) (by decide)).2.2.2
      (by decide) (by decide)).1,
    by decide,
    ((addMember_capacity_rule pairTeam 11 .member 3 (by decide) (by decide)).2.2.2
      (by decide) (by decide)).2 12 .member 4 (by decide)⟩

/-- C7 (removeMember).  On a team whose members hold each identity at most
once, `removeMember` throws the not-member error iff the identity has no entry,
then leaving the document as it was; otherwise it throws nothing and removes the
one matching entry: the members are the old list without that entry, in the old
order, one shorter, and every other field is unchanged. -/
theorem removeMember_spec (t : Team) (u : ObjectId) (hnd : (memberIds t.members).Nodup) :
    ((removeMember t u).thrown = some .notMember ↔ u ∉ memberIds t.members)
    ∧ (u ∉ memberIds t.members → removeMember t u = ⟨some .notMember, t⟩)
    ∧ (u ∈ memberIds t.members →
        (removeMember t u).thrown = none
        ∧ (removeMember t u).doc = { t with members := (removeMember t u).doc.members }
        ∧ (removeMember t u).doc.leader = t.leader
        ∧ (removeMember t u).doc.capacity = t.capacity
        ∧ (removeMember t u).doc.members.length + 1 = t.members.length
        ∧ u ∉ memberIds (removeMember t u).doc.members
        ∧ ∃ (before : List Member) (entry : Member) (after : List Member),
            t.members = before ++ entry :: after ∧ entry.user = u
            ∧ (removeMember t u).doc.members = before ++ after) := by
  refine ⟨?_, ?_, ?_⟩
  · by_cases hm : u ∈ memberIds t.members
    · rw [removeMember_of_mem t u hm]
      simp [hm]
    · rw [removeMember_of_not_mem t u hm]
      simp [hm]
  · intro hm
    exact removeMember_of_not_mem t u hm
  · intro hm
    rw [removeMember_of_mem t u hm]
    exact ⟨rfl, rfl, rfl, rfl, filter_ne_length_succ_of_nodup t.members u hnd hm,
      not_mem_memberIds_filter t.members u, filter_ne_splits t.members u hnd hm⟩

/-- Witness of C7 on `sampleTeam`: removing its only member 11 leaves no
members. -/
theorem removeMember_spec_witness :
    (removeMember sampleTeam 11).thrown = none
    ∧ (removeMember sampleTeam 11).doc.members.length + 1 = sampleTeam.members.length :=
  ⟨((removeMember_spec sampleTeam 11 (by decide)).2.2 (by decide)).1,
    ((removeMember_spec sampleTeam 11 (by decide)).2.2 (by decide)).2.2.2.2.1⟩

/-- C8 (lifecycle table), refuted on the code.  `assignTeam` by an admin on a
cancelled incident succeeds and sets its status to `assigned`, and
`updateReportStatus` moves a completed report back to `pending`. -/
theorem assign_on_cancelled_incident_succeeds :
    cancelledIncident.status = .cancelled
    ∧ assignTeam [sampleTeam] [cancelledIncident] ⟨1, .admin⟩ 5 (some 1) (some 30)
        = (.success 200
            { cancelledIncident with
              status := .assigned, assignedTeam := some 1, etaMinutes := some 30 },
           [{ cancelledIncident with
              status := .assigned, assignedTeam := some 1, etaMinutes := some 30 }])
    ∧ completedReport.status = .completed
    ∧ updateReportStatus [completedReport] 9 "pending" none 12
        = (.success 200 { completedReport with status := .pending },
           [{ completedReport with status := .pending }]) := by
  refine ⟨by decide, by decide, by decide, by decide⟩

/-- C8 as amended.  The handlers do not read the current status of the case:
for a stored incident in any status, `assignTeam` by an admin with a stored team
answers 200 and stores status `assigned`, `acceptIncident` answers 200 and
stores status `accepted`, `cancelIncident` by an admin answers 200 and stores
status `cancelled`; for a stored report in any status, `assignReport` answers
200 and stores status `live`, and `updateReportStatus` with a recognised status
answers 200 and stores that status. -/
theorem status_changes_ignore_current_status :
    (∀ (teams : List Team) (incidents : List Incident) (user : Principal)
        (incidentId T : ObjectId) (e : Option Int) (team : Team) (i : Incident),
        user.role = .admin → Team.findById teams T = some team →
        Incident.findById incidents incidentId = some i →
        ∃ i1, assignTeam teams incidents user incidentId (some T) e
                = (.success 200 i1, Incident.save incidents i1)
          ∧ i1.status = .assigned
          ∧ Incident.findById (Incident.save incidents i1) incidentId = some i1)
    ∧ (∀ (incidents : List Incident) (incidentId : ObjectId) (teamId : Option ObjectId)
        (e : Option Int) (i : Incident),
        Incident.findById incidents incidentId = some i →
        ∃ i1, acceptIncident incidents incidentId teamId e
                = (.success 200 i1, Incident.save incidents i1)
          ∧ i1.status = .accepted
          ∧ Incident.findById (Incident.save incidents i1) incidentId = some i1)
    ∧ (∀ (incidents : List Incident) (user : Principal) (incidentId : ObjectId)
        (reason : Option String) (i : Incident),
        user.role = .admin → Incident.findById incidents incidentId = some i →
        ∃ i1, cancelIncident incidents user incidentId reason
                = (.success 200 i1, Incident.save incidents i1)
          ∧ i1.status = .cancelled
          ∧ Incident.findById (Incident.save incidents i1) incidentId = some i1)
    ∧ (∀ (reports : List Report) (user : Principal) (id : ObjectId)
        (teamId : Option ObjectId) (e : Option Int) (adminNotes : Option String) (now : Nat)
        (r : Report),
        Report.findById reports id = some r →
        ∃ r1, assignReport reports user id teamId e adminNotes now
                = (.success 200 r1, Report.save reports r1)
          ∧ r1.status = .live
          ∧ Report.findById (Report.save reports r1) id = some r1)
    ∧ (∀ (reports : List Report) (id : ObjectId) (status : String) (notes : Option String)
        (now : Nat) (st : ReportStatus) (r : Report),
        allowedStatus status = some st → Report.findById reports id = some r →
        ∃ r1, updateReportStatus reports id status notes now
                = (.success 200 r1, Report.save reports r1)
          ∧ r1.status = st
          ∧ Report.findById (Report.save reports r1) id = some r1) := by
  refine ⟨?_, ?_, ?_, ?_, ?_⟩
  · intro teams incidents user incidentId T e team i hadmin hT hi
    have hid := incident_findById_id incidents incidentId i hi
    exact ⟨_, assignTeam_found teams incidents user incidentId T e team i hadmin hT hi, rfl,
      incident_findById_save incidents incidentId i _ hi hid⟩
  · intro incidents incidentId teamId e i hi
    have hid := incident_findById_id incidents incidentId i hi
    exact ⟨_, acceptIncident_found incidents incidentId teamId e i hi, rfl,
      incident_findById_save incidents incidentId i _ hi hid⟩
  · intro incidents user incidentId reason i hadmin hi
    have hid := incident_findById_id incidents incidentId i hi
    exact ⟨_, cancelIncident_found incidents user incidentId reason i hadmin hi, rfl,
      incident_findById_save incidents incidentId i _ hi hid⟩
  · intro reports user id teamId e adminNotes now r hr
    have hid := report_findById_id reports id r hr
    exact ⟨_, assignReport_found reports user id teamId e adminNotes now r hr, rfl,
      report_findById_save reports id r _ hr hid⟩
  · intro reports id status notes now st r hs hr
    have hid := report_findById_id reports id r hr
    exact ⟨_, updateReportStatus_found reports id status notes now st r hs hr, rfl,
      report_findById_save reports id r _ hr hid⟩

/-- Witness of the amended C8: accepting the cancelled incident 5 stores status
`accepted`. -/
theorem status_changes_ignore_current_status_witness :
    ∃ i1, acceptIncident [cancelledIncident] 5 none none
            = (.success 200 i1, Incident.save [cancelledIncident] i1)
      ∧ i1.status = .accepted
      ∧ Incident.findById (Incident.save [cancelledIncident] i1) 5 = some i1 :=
  status_changes_ignore_current_status.2.1 [cancelledIncident] 5 none none cancelledIncident
    (by decide)

/-- C9 (assignment to an unusable team), refuted on the code.  `assignTeam` with
the stored but deactivated team 3 succeeds and stores the assignment, and
`assignReport` with the team id 99, which no stored team has, succeeds and
stores `assignedTeam = 99`. -/
theorem assign_accepts_unusable_team :
    inactiveTeam.isActive = false
    ∧ inactiveTeam.status = .inactive
    ∧ assignTeam [inactiveTeam] [newIncident] ⟨1, .admin⟩ 6 (some 3) (some 30)
        = (.success 200
            { newIncident with
              status := .assigned, assignedTeam := some 3, etaMinutes := some 30 },
           [{ newIncident with
              status := .assigned, assignedTeam := some 3, etaMinutes := some 30 }])
    ∧ Team.findById [inactiveTeam] 99 = none
    ∧ assignReport [pendingReport] ⟨1, .admin⟩ 8 (some 99) (some 30) none 4
        = (.success 200
            { pendingReport with
              status := .live, assignedTeam := some 99, assignedBy := some 1,
              assignedAt := some 4, etaMinutes := some 30 },
           [{ pendingReport with
              status := .live, assignedTeam := some 99, assignedBy := some 1,
              assignedAt := some 4, etaMinutes := some 30 }]) := by
  refine ⟨by decide, by decide, by decide, by decide, by decide⟩

/-- C9 as amended.  An `assignTeam` request whose team id is absent or does not
resolve to a stored team fails, with the 404 error `Team not found` for an admin
and with the 403 error otherwise, and leaves every stored incident as it was;
a team id that resolves to a stored team is accepted whatever the team's
`isActive` and `status` are. -/
theorem assignTeam_rejects_unresolved_team :
    (∀ (teams : List Team) (incidents : List Incident) (user : Principal)
        (incidentId : ObjectId) (teamId : Option ObjectId) (e : Option Int),
        teamId.bind (Team.findById teams) = none →
        (assignTeam teams incidents user incidentId teamId e).2 = incidents
        ∧ (user.role = .admin →
            (assignTeam teams incidents user incidentId teamId e).1
              = .failure 404 "Team not found")
        ∧ (user.role ≠ .admin →
            (assignTeam teams incidents user incidentId teamId e).1
              = .failure 403 "Only admin can assign"))
    ∧ (∀ (teams : List Team) (incidents : List Incident) (user : Principal)
        (incidentId T : ObjectId) (e : Option Int) (team : Team) (i : Incident)
        (active : Bool) (status : TeamStatus),
        user.role = .admin → Team.findById teams T = some team →
        team.isActive = active → team.status = status →
        Incident.findById incidents incidentId = some i →
        (assignTeam teams incidents user incidentId (some T) e).1.isSuccess = true
        ∧ ∃ i1, Incident.findById (assignTeam teams incidents user incidentId (some T) e).2
                  incidentId = some i1
            ∧ i1.assignedTeam = some T ∧ i1.status = .assigned) := by
  refine ⟨?_, ?_⟩
  · intro teams incidents user incidentId teamId e hT
    rw [assignTeam_unresolved teams incidents user incidentId teamId e hT]
    by_cases hadmin : user.role = .admin
    · simp [hadmin]
    · simp [hadmin]
  · intro teams incidents user incidentId T e team i active status hadmin hT _ _ hi
    have hid := incident_findById_id incidents incidentId i hi
    rw [assignTeam_found teams incidents user incidentId T e team i hadmin hT hi]
    exact ⟨rfl, _, incident_findById_save incidents incidentId i _ hi hid, rfl, rfl⟩

/-- Witness of the amended C9: team 99 is not stored, the admin's request fails
with 404 and the incident collection is unchanged. -/
theorem assignTeam_rejects_unresolved_team_witness :
    (assignTeam [sampleTeam] [newIncident] ⟨1, .admin⟩ 6 (some 99) (some 30)).2 = [newIncident]
    ∧ (assignTeam [sampleTeam] [newIncident] ⟨1, .admin⟩ 6 (some 99) (some 30)).1
        = .failure 404 "Team not found" :=
  ⟨(assignTeam_rejects_unresolved_team.1 [sampleTeam] [newIncident] ⟨1, .admin⟩ 6 (some 99)
      (some 30) (by decide)).1,
   (assignTeam_rejects_unresolved_team.1 [sampleTeam] [newIncident] ⟨1, .admin⟩ 6 (some 99)
      (some 30) (by decide)).2.1 (by decide)⟩

/-- C10 (assign, then accept).  For a stored incident in status `new`, a stored
team `T` and an ETA `e`, `assignTeam(T, e)` by an admin answers 200 with status
`assigned`, `assignedTeam = T` and `etaMinutes = e`, and stores that incident; a
following `acceptIncident` without team and without ETA answers 200 with status
`accepted`, `acceptedBy = T` and `etaMinutes = e`, and stores that incident. -/
theorem assign_then_accept (teams : List Team) (incidents : List Incident) (admin : Principal)
    (incidentId T : ObjectId) (e : Int) (team : Team) (i : Incident)
    (hadmin : admin.role = .admin) (hT : Team.findById teams T = some team)
    (hi : Incident.findById incidents incidentId = some i) (_hnew : i.status = .new) :
    ∃ (i1 i2 : Incident) (incidents1 incidents2 : List Incident),
      assignTeam teams incidents admin incidentId (some T) (some e) = (.success 200 i1, incidents1)
      ∧ i1.status = .assigned ∧ i1.assignedTeam = some T ∧ i1.etaMinutes = some e
      ∧ Incident.findById incidents1 incidentId = some i1
      ∧ acceptIncident incidents1 incidentId none none = (.success 200 i2, incidents2)
      ∧ i2.status = .accepted ∧ i2.acceptedBy = some T ∧ i2.etaMinutes = some e
      ∧ i2.assignedTeam = some T
      ∧ Incident.findById incidents2 incidentId = some i2 := by
  have hid := incident_findById_id incidents incidentId i hi
  have h1 := assignTeam_found teams incidents admin incidentId T (some e) team i hadmin hT hi
  have hf1 := incident_findById_save incidents incidentId i
    { i with
      assignedTeam := some T
      status := .assigned
      etaMinutes := if (some e).isSome then some e else i.etaMinutes } hi hid
  have h2 := acceptIncident_found _ incidentId none none _ hf1
  have hf2 := incident_findById_save _ incidentId _
    { ({ i with
          assignedTeam := some T
          status := .assigned
          etaMinutes := if (some e).isSome then some e else i.etaMinutes } : Incident) with
      status := .accepted
      acceptedBy := if (none : Option ObjectId).isSome then none else some T
      etaMinutes := if truthy none then none else
        (if (some e).isSome then some e else i.etaMinutes) } hf1 hid
  exact ⟨_, _, _, _, h1, rfl, rfl, rfl, hf1, h2, rfl, rfl, rfl, rfl, hf2⟩

/-- Witness of C10 with `e = 30`: incident 6 is assigned to team 1 by admin 1 and
then accepted. -/
theorem assign_then_accept_witness :
    ∃ (i1 i2 : Incident) (incidents1 incidents2 : List Incident),
      assignTeam [sampleTeam] [newIncident] ⟨1, .admin⟩ 6 (some 1) (some 30)
        = (.success 200 i1, incidents1)
      ∧ i1.status = .assigned ∧ i1.assignedTeam = some 1 ∧ i1.etaMinutes = some 30
      ∧ Incident.findById incidents1 6 = some i1
      ∧ acceptIncident incidents1 6 none none = (.success 200 i2, incidents2)
      ∧ i2.status = .accepted ∧ i2.acceptedBy = some 1 ∧ i2.etaMinutes = some 30
      ∧ i2.assignedTeam = some 1
      ∧ Incident.findById incidents2 6 = some i2 :=
  assign_then_accept [sampleTeam] [newIncident] ⟨1, .admin⟩ 6 1 30 sampleTeam newIncident
    (by decide) (by decide) (by decide) (by decide)

/-! ## Acceptance -/

/-- An ETA of `0` supplied to `acceptIncident` is not written: the test
`if (etaMinutes)` is falsy for `0`. -/
theorem acceptIncident_eta_zero_skipped :
    acceptIncident [assignedIncident] 7 none (some 0)
      = (.success 200
          { assignedIncident with status := .accepted, acceptedBy := some 1 },
         [{ assignedIncident with status := .accepted, acceptedBy := some 1 }]) := by
  decide

/-- C11 (accept and its team reference), refuted on the code.  No stored team
has the id 99, yet `acceptIncident` with team id 99 answers 200 and stores
`acceptedBy = 99` on the incident. -/
theorem accept_takes_unresolved_team :
    Team.findById [sampleTeam] 99 = none
    ∧ acceptIncident [assignedIncident] 7 (some 99) none
        = (.success 200
            { assignedIncident with status := .accepted, acceptedBy := some 99 },
           [{ assignedIncident with status := .accepted, acceptedBy := some 99 }]) := by
  refine ⟨by decide, by decide⟩

/-- C11 as amended.  `acceptIncident` looks up no team.  It fails, with the 404
error `Incident not found` and every incident unchanged, exactly when the
incident id does not resolve.  On a stored incident it answers 200 and stores
status `accepted`; `acceptedBy` is the supplied team id when one is supplied and
the incident's current `assignedTeam` otherwise; `etaMinutes` is the supplied
ETA when a non-zero one is supplied and is unchanged when none is supplied. -/
theorem acceptIncident_team_and_eta :
    (∀ (incidents : List Incident) (incidentId : ObjectId) (teamId : Option ObjectId)
        (e : Option Int),
        Incident.findById incidents incidentId = none →
        acceptIncident incidents incidentId teamId e
          = (.failure 404 "Incident not found", incidents))
    ∧ (∀ (incidents : List Incident) (incidentId : ObjectId) (teamId : Option ObjectId)
        (e : Option Int) (i : Incident),
        Incident.findById incidents incidentId = some i →
        ∃ i1, acceptIncident incidents incidentId teamId e
                = (.success 200 i1, Incident.save incidents i1)
          ∧ Incident.findById (Incident.save incidents i1) incidentId = some i1
          ∧ i1.status = .accepted
          ∧ (∀ T, teamId = some T → i1.acceptedBy = some T)
          ∧ (teamId = none → i1.acceptedBy = i.assignedTeam)
          ∧ (∀ v, e = some v → v ≠ 0 → i1.etaMinutes = some v)
          ∧ (e = none → i1.etaMinutes = i.etaMinutes)
          ∧ i1.assignedTeam = i.assignedTeam) := by
  refine ⟨?_, ?_⟩
  · intro incidents incidentId teamId e hnone
    simp [acceptIncident, hnone]
  · intro incidents incidentId teamId e i hi
    have hid := incident_findById_id incidents incidentId i hi
    refine ⟨_, acceptIncident_found incidents incidentId teamId e i hi,
      incident_findById_save incidents incidentId i _ hi hid, rfl, ?_, ?_, ?_, ?_, rfl⟩
    · intro T hT
      subst hT
      rfl
    · intro hT
      subst hT
      rfl
    · intro v hv hv0
      subst hv
      have ht : truthy (some v) = true := by simp [truthy, hv0]
      show (if truthy (some v) then some v else i.etaMinutes) = some v
      rw [if_pos ht]
    · intro he
      subst he
      rfl

/-- Witness of the amended C11: accepting incident 7 for team 2 with an ETA of 15
stores `acceptedBy = 2` and `etaMinutes = 15`. -/
theorem acceptIncident_team_and_eta_witness :
    ∃ i1, acceptIncident [assignedIncident] 7 (some 2) (some 15)
            = (.success 200 i1, Incident.save [assignedIncident] i1)
      ∧ i1.acceptedBy = some 2 ∧ i1.etaMinutes = some 15 := by
  obtain ⟨i1, h1, _, _, h4, _, h6, _, _⟩ :=
    acceptIncident_team_and_eta.2 [assignedIncident] 7 (some 2) (some 15) assignedIncident
      (by decide)
  exact ⟨i1, h1, h4 2 rfl, h6 15 rfl (by decide)⟩

/-! ## Status updates of a report -/

theorem allowedStatus_eq_none_iff (status : String) :
    allowedStatus status = none ↔ status ∉ allowed := by
  unfold allowedStatus allowed
  by_cases h1 : status = "pending"
  · simp [h1]
  · by_cases h2 : status = "live"
    · simp [h2]
    · by_cases h3 : status = "completed"
      · simp [h3]
      · by_cases h4 : status = "cancelled"
        · simp [h4]
        · simp [h1, h2, h3, h4]

theorem allowedStatus_eq_some_iff (status : String) (st : ReportStatus) :
    allowedStatus status = some st ↔ st.name = status := by
  unfold allowedStatus
  by_cases h1 : status = "pending"
  · subst h1
    cases st <;> simp [ReportStatus.name]
  · by_cases h2 : status = "live"
    · subst h2
      cases st <;> simp [ReportStatus.name]
    · by_cases h3 : status = "completed"
      · subst h3
        cases st <;> simp [ReportStatus.name]
      · by_cases h4 : status = "cancelled"
        · subst h4
          cases st <;> simp [ReportStatus.name]
        · have : ¬ st.name = status := by
            cases st
            · exact fun h => h1 h.symm
            · exact fun h => h2 h.symm
            · exact fun h => h3 h.symm
            · exact fun h => h4 h.symm
          simp [h1, h2, h3, h4, this]

/-- C13 (setStatus validates its target).  `updateReportStatus` fails with the
400 error `Invalid status` iff the requested status is not one of `pending`,
`live`, `completed`, `cancelled`; that test comes before the lookup, so the
answer is the same whether or not the id resolves, and no report changes.  With
a recognised status it fails with the 404 error iff the id does not resolve,
again changing nothing; otherwise it answers 200 and stores the report with the
requested status, with `resolutionNotes` replaced when supplied, and with
`completedAt` set when the target is `completed`. -/
theorem updateReportStatus_validates (reports : List Report) (id : ObjectId)
    (status : String) (notes : Option String) (now : Nat) :
    ((updateReportStatus reports id status notes now).1 = .failure 400 "Invalid status"
        ↔ status ∉ allowed)
    ∧ (status ∉ allowed →
        updateReportStatus reports id status notes now
          = (.failure 400 "Invalid status", reports))
    ∧ (status ∈ allowed →
        ((updateReportStatus reports id status notes now).1 = .failure 404 "Report not found"
          ↔ Report.findById reports id = none))
    ∧ (status ∈ allowed → Report.findById reports id = none →
        updateReportStatus reports id status notes now
          = (.failure 404 "Report not found", reports))
    ∧ (∀ (r : Report), status ∈ allowed → Report.findById reports id = some r →
        ∃ r1, updateReportStatus reports id status notes now
                = (.success 200 r1, Report.save reports r1)
          ∧ Report.findById (Report.save reports r1) id = some r1
          ∧ r1.status.name = status
          ∧ (∀ n, notes = some n → r1.resolutionNotes = some n)
          ∧ (notes = none → r1.resolutionNotes = r.resolutionNotes)
          ∧ (status = "completed" → r1.completedAt = some now)
          ∧ (status ≠ "completed" → r1.completedAt = r.completedAt)) := by
  cases hs : allowedStatus status with
  | none =>
    have hnot : status ∉ allowed := (allowedStatus_eq_none_iff status).mp hs
    have heq : updateReportStatus reports id status notes now
        = (.failure 400 "Invalid status", reports) := by
      simp [updateReportStatus, hs]
    rw [heq]
    refine ⟨by simp [hnot], fun _ => rfl, fun h => absurd h hnot, fun h => absurd h hnot,
      fun _ h => absurd h hnot⟩
  | some st =>
    have hin : status ∈ allowed := by
      by_contra hcon
      rw [← allowedStatus_eq_none_iff, hs] at hcon
      exact absurd hcon (by simp)
    have hname : st.name = status := (allowedStatus_eq_some_iff status st).mp hs
    cases hr : Report.findById reports id with
    | none =>
      have heq : updateReportStatus reports id status notes now
          = (.failure 404 "Report not found", reports) := by
        simp [updateReportStatus, hs, hr]
      rw [heq]
      refine ⟨by simp [hin], fun h => absurd hin h, fun _ => by simp, fun _ _ => rfl, ?_⟩
      intro r _ h
      exact absurd h (by simp)
    | some r0 =>
      have hid := report_findById_id reports id r0 hr
      have heq := updateReportStatus_found reports id status notes now st r0 hs hr
      rw [heq]
      refine ⟨by simp [hin], fun h => absurd hin h, fun _ => by simp,
        fun _ h => absurd h (by simp), ?_⟩
      intro r _ h
      have hrr : r0 = r := by simpa using h
      subst hrr
      refine ⟨_, rfl, report_findById_save reports id r0 _ hr hid, hname, ?_, ?_, ?_, ?_⟩
      · intro n hn
        subst hn
        rfl
      · intro hn
        subst hn
        rfl
      · intro hc
        have hst : st = .completed := by
          rw [← hname] at hc
          cases st <;> simp [ReportStatus.name] at hc ⊢
        subst hst
        rfl
      · intro hc
        have hst : ¬ st = .completed := by
          intro hh
          subst hh
          exact hc hname.symm
        show (if st = .completed then some now else r0.completedAt) = r0.completedAt
        rw [if_neg hst]

/-- Witness of C13: the status `archived` is rejected as invalid although the id
77 resolves to no report, and `completed` on report 8 stores `completedAt`. -/
theorem updateReportStatus_validates_witness :
    updateReportStatus [pendingReport] 77 "archived" none 4
      = (.failure 400 "Invalid status", [pendingReport])
    ∧ ∃ r1, updateReportStatus [pendingReport] 8 "completed" (some "ok") 4
              = (.success 200 r1, Report.save [pendingReport] r1)
        ∧ r1.completedAt = some 4 := by
  refine ⟨(updateReportStatus_validates [pendingReport] 77 "archived" none 4).2.1 (by decide), ?_⟩
  obtain ⟨r1, h1, _, _, _, _, h6, _⟩ :=
    (updateReportStatus_validates [pendingReport] 8 "completed" (some "ok") 4).2.2.2.2
      pendingReport (by decide) (by decide)
  exact ⟨r1, h1, h6 rfl⟩

/-! ## Self-service leave and join -/

/-- C15 (leaveTeam).  On a stored team, `leaveTeam` fails with the
leader-cannot-leave error whenever the caller is the leader, even if the leader
also has an entry in `members`; otherwise it fails with the not-member error
when the caller has no entry; both failures leave the collection as it was.  In
every other case it answers 200, `removeMember` throws nothing, and the stored
team is the document `removeMember` produced, with the leader unchanged. -/
theorem leaveTeam_spec (teams : List Team) (user : Principal) (teamId : ObjectId) (t : Team)
    (hf : Team.findById teams teamId = some t) :
    (t.leader = user._id →
        leaveTeam teams user teamId
          = (.failure 400 "Team leader cannot leave the team. Transfer leadership first.", teams))
    ∧ (t.leader ≠ user._id → user._id ∉ memberIds t.members →
        leaveTeam teams user teamId
          = (.failure 400 "You are not a member of this team", teams))
    ∧ (t.leader ≠ user._id → user._id ∈ memberIds t.members →
        leaveTeam teams user teamId
          = (.success 200 (), Team.save teams (removeMember t user._id).doc)
        ∧ (removeMember t user._id).thrown = none
        ∧ Team.findById (leaveTeam teams user teamId).2 teamId
            = some (removeMember t user._id).doc
        ∧ (removeMember t user._id).doc.leader = t.leader) := by
  have hid := team_findById_id teams teamId t hf
  rw [leaveTeam_found teams user teamId t hf]
  refine ⟨?_, ?_, ?_⟩
  · intro hl
    simp [hl]
  · intro hl hm
    simp [hl, hm]
  · intro hl hm
    rw [removeMember_of_mem t user._id hm, if_neg hl, if_neg (not_not.mpr hm)]
    exact ⟨rfl, rfl, team_findById_save teams teamId t _ hf hid, rfl⟩

/-- Witness of C15 on `sampleTeam`: its member 11 leaves, its leader 10 may not. -/
theorem leaveTeam_spec_witness :
    leaveTeam [sampleTeam] ⟨11, .user⟩ 1
      = (.success 200 (), Team.save [sampleTeam] (removeMember sampleTeam 11).doc)
    ∧ leaveTeam [sampleTeam] ⟨10, .rescue⟩ 1
      = (.failure 400 "Team leader cannot leave the team. Transfer leadership first.",
          [sampleTeam]) :=
  ⟨((leaveTeam_spec [sampleTeam] ⟨11, .user⟩ 1 sampleTeam (by decide)).2.2
      (by decide) (by decide)).1,
    (leaveTeam_spec [sampleTeam] ⟨10, .rescue⟩ 1 sampleTeam (by decide)).1 (by decide)⟩

/-- C16 (joinTeam is a guarded addMember).  On a stored team, `joinTeam`
succeeds iff the caller is not the leader, has no entry in `members`, and
`members.length + 1 < capacity`.  On success the stored team is the document
`addMember(caller, member)` produced; on failure the collection is as it was.
Whenever the handler's own three checks pass, `addMember` throws nothing, so the
handler never forwards an error thrown by the method. -/
theorem joinTeam_guarded_addMember (teams : List Team) (user : Principal) (teamId : ObjectId)
    (now : Nat) (t : Team) (hf : Team.findById teams teamId = some t) :
    ((joinTeam teams user teamId now).1.isSuccess = true
        ↔ t.leader ≠ user._id ∧ user._id ∉ memberIds t.members
          ∧ t.members.length + 1 < t.capacity)
    ∧ ((joinTeam teams user teamId now).1.isSuccess = true →
        (joinTeam teams user teamId now).2
          = Team.save teams (addMember t user._id .member now).doc
        ∧ Team.findById (joinTeam teams user teamId now).2 teamId
            = some (addMember t user._id .member now).doc)
    ∧ ((joinTeam teams user teamId now).1.isSuccess = false →
        (joinTeam teams user teamId now).2 = teams)
    ∧ (t.leader ≠ user._id → user._id ∉ memberIds t.members →
        ¬ memberCount t ≥ t.capacity →
        (addMember t user._id .member now).thrown = none)
    ∧ (∀ e, (joinTeam teams user teamId now).1 ≠ .thrown e) := by
  have hid := team_findById_id teams teamId t hf
  rw [joinTeam_found teams user teamId now t hf]
  by_cases hl : t.leader = user._id
  · simp [hl, Reply.isSuccess]
  · by_cases hm : user._id ∈ memberIds t.members
    · simp [hl, hm, Reply.isSuccess]
    · by_cases hc : t.capacity ≤ t.members.length + 1
      · have hc2 : ¬ (t.members.length : ℚ) + 1 < t.capacity := not_lt.mpr hc
        simp [hl, hm, hc, hc2, Reply.isSuccess, memberCount]
      · have hroom : t.members.length + 1 < t.capacity := not_le.mp hc
        have hadd := addMember_of_room t user._id .member now hm hroom
        simp only [hl, hm, hc, if_false, Reply.isSuccess]
        rw [hadd]
        refine ⟨?_, ?_, ?_, ?_, ?_⟩
        · simp [hl, hm, hroom]
        · intro _
          exact ⟨rfl, team_findById_save teams teamId t _ hf hid⟩
        · intro hh
          simp at hh
        · intro _ _ _
          rfl
        · intro e hh
          simp at hh

/-- Witness of C16 on `sampleTeam`: user 12 joins and the stored team is the
document `addMember` produced. -/
theorem joinTeam_guarded_addMember_witness :
    (joinTeam [sampleTeam] ⟨12, .user⟩ 1 5).1.isSuccess = true
    ∧ Team.findById (joinTeam [sampleTeam] ⟨12, .user⟩ 1 5).2 1
        = some (addMember sampleTeam 12 .member 5).doc :=
  ⟨by decide,
    ((joinTeam_guarded_addMember [sampleTeam] ⟨12, .user⟩ 1 5 sampleTeam (by decide)).2.1
      (by decide)).2⟩

/-! ## Permission to change a roster -/

theorem checkTeamPermission_iff (team : Team) (u : ObjectId) (role : UserRole) :
    checkTeamPermission team u role = true ↔ role = .admin ∨ u = team.leader := by
  unfold checkTeamPermission
  by_cases hr : role = .admin
  · simp [hr]
  · by_cases hl : team.leader = u
    · simp [hr, hl]
    · have hl2 : ¬ u = team.leader := fun h => hl h.symm
      simp [hr, hl, hl2]

/-- The permission check in `addTeamMember` and `changeTeamLeader`, on a stored
team: when `checkTeamPermission` is false for the caller both fail with their
403 error and leave the collection as it was; when the caller is an admin or the
team's leader, neither answers with a 403 error. -/
theorem permission_in_add_and_changeLeader (teams : List Team) (users : List ObjectId)
    (user : Principal) (teamId : ObjectId) (t : Team)
    (hf : Team.findById teams teamId = some t) :
    (checkTeamPermission t user._id user.role = false →
        (∀ (userId : ObjectId) (role : MemberRole) (now : Nat),
          addTeamMember teams users user teamId userId role now
            = (.failure 403 "You do not have permission to add members to this team", teams))
        ∧ (∀ (newLeaderId : ObjectId) (now : Nat),
          changeTeamLeader teams user teamId newLeaderId now
            = (.failure 403 "You do not have permission to change team leader", teams)))
    ∧ (user.role = .admin ∨ user._id = t.leader →
        (∀ (userId : ObjectId) (role : MemberRole) (now : Nat) (msg : String),
          (addTeamMember teams users user teamId userId role now).1 ≠ .failure 403 msg)
        ∧ (∀ (newLeaderId : ObjectId) (now : Nat) (msg : String),
          (changeTeamLeader teams user teamId newLeaderId now).1 ≠ .failure 403 msg)) := by
  refine ⟨?_, ?_⟩
  · intro hperm
    refine ⟨?_, ?_⟩
    · intro userId role now
      simp [addTeamMember, hf, hperm]
    · intro newLeaderId now
      simp [changeTeamLeader, hf, hperm]
  · intro hwho
    have hperm : checkTeamPermission t user._id user.role = true :=
      (checkTeamPermission_iff t user._id user.role).mpr hwho
    refine ⟨?_, ?_⟩
    · intro userId role now msg
      unfold addTeamMember
      rw [hf]
      simp only [hperm, Bool.not_true, Bool.false_eq_true, if_false]
      by_cases hu : users.contains userId = true
      · simp only [hu, Bool.not_true, Bool.false_eq_true, if_false]
        rcases hres : addMember t userId role now with ⟨thrown, doc⟩
        cases thrown <;> simp
      · have hu2 : users.contains userId = false := by simpa using hu
        simp only [hu2, Bool.not_false, if_true]
        simp
    · intro newLeaderId now msg
      unfold changeTeamLeader
      rw [hf]
      simp only [hperm, Bool.not_true, Bool.false_eq_true, if_false]
      rcases hres : changeLeader t newLeaderId now with ⟨thrown, doc⟩
      cases thrown <;> simp

/-- C17 (roster mutation permission), evaluated on the code.  The handler
`removeTeamMember` looks the team up by `req.params.teamId`, a name its route
`/:id/members/:userId` does not bind, so every routed request ends in the 404
error and the collection is unchanged.  On the stored `sampleTeam` (leader 10,
member 11): user 12, neither leader nor admin, gets the 404 error, not the 403
error; an admin and the leader get the 404 error too, and member 11 stays. -/
theorem removeTeamMember_route_answers_404 :
    (∀ (teams : List Team) (user : Principal) (id userId : ObjectId),
        removeTeamMemberRoute teams user id userId
          = (.failure 404 "No team found with that ID", teams))
    ∧ Team.findById [sampleTeam] 1 = some sampleTeam
    ∧ checkTeamPermission sampleTeam 12 .rescue = false
    ∧ removeTeamMemberRoute [sampleTeam] ⟨12, .rescue⟩ 1 11
        = (.failure 404 "No team found with that ID", [sampleTeam])
    ∧ removeTeamMemberRoute [sampleTeam] ⟨1, .admin⟩ 1 11
        = (.failure 404 "No team found with that ID", [sampleTeam])
    ∧ removeTeamMemberRoute [sampleTeam] ⟨10, .rescue⟩ 1 11
        = (.failure 404 "No team found with that ID", [sampleTeam]) := by
  refine ⟨?_, by decide, by decide, by decide, by decide, by decide⟩
  intro teams user id userId
  rfl

/-! ## Creating a team -/

/-- C14 (createTeam initial state), evaluated on the code.  For `sampleBody`
(valid, default capacity) `createTeam` answers 201 with a team whose `members`
hold a `supervisor` entry for the creator; for `soloBody` (valid, capacity 1)
the team is stored with no members and the handler then fails with the capacity
error thrown by its own `addMember` call. -/
theorem createTeam_enrols_creator :
    createTeam [] ⟨1, .rescue⟩ sampleBody 7 0 = (.success 201 createdTeam, [createdTeam])
    ∧ createdTeam.members = [⟨1, .supervisor, 0⟩]
    ∧ createdTeam.members ≠ []
    ∧ createTeam [] ⟨1, .rescue⟩ soloBody 7 0
        = (.thrown .capacityReached, [{ createdTeam with members := [], capacity := 1 }]) := by
  refine ⟨by decide, by decide, by decide, by decide⟩

/-! ## Coordinates -/

theorem coordinatesValid_iff (v : List Int) :
    coordinatesValid v = true
      ↔ ∃ lng lat, v = [lng, lat] ∧ -180 ≤ lng ∧ lng ≤ 180 ∧ -90 ≤ lat ∧ lat ≤ 90 := by
  unfold coordinatesValid
  match v with
  | [] => simp
  | [a] => simp
  | [a, b] =>
    simp only [List.length_cons, List.length_nil, List.getD_cons_zero, List.getD_cons_succ,
      Bool.and_eq_true, decide_eq_true_eq, beq_iff_eq]
    constructor
    · rintro ⟨⟨⟨⟨_, h1⟩, h2⟩, h3⟩, h4⟩
      exact ⟨a, b, rfl, h1, h2, h3, h4⟩
    · rintro ⟨lng, lat, hv, h1, h2, h3, h4⟩
      have ha : a = lng := by simpa using congrArg (fun l => l.getD 0 0) hv
      have hb : b = lat := by simpa using congrArg (fun l => l.getD 1 0) hv
      subst ha
      subst hb
      exact ⟨⟨⟨⟨trivial, h1⟩, h2⟩, h3⟩, h4⟩
  | a :: b :: c :: rest => simp

/-- C20 (coordinate validation), refuted on the code.  A request whose
`location` carries no `coordinates` does not fail validation: the handler
substitutes `[0, 0]` and the team is created. -/
theorem createTeam_defaults_missing_coordinates :
    noCoordinatesBody.location = some none
    ∧ createTeam [] ⟨1, .admin⟩ noCoordinatesBody 7 0
        = (.success 201 createdTeam, [createdTeam])
    ∧ createdTeam.coordinates = [0, 0] := by
  refine ⟨by decide, by decide, by decide⟩

/-- C20 as amended.  The validator accepts a coordinate list iff it is
`[longitude, latitude]` with `-180 ≤ longitude ≤ 180` and `-90 ≤ latitude ≤ 90`.
`createTeam` by an admin or rescue creator fails with a validation error, and
stores nothing, for every request whose `location` carries coordinates that the
validator does not accept; a request whose `location` carries no coordinates is
handled exactly as one that carries `[0, 0]`, which the validator accepts. -/
theorem coordinates_validation :
    (∀ (v : List Int),
        coordinatesValid v = true
          ↔ ∃ lng lat, v = [lng, lat] ∧ -180 ≤ lng ∧ lng ≤ 180 ∧ -90 ≤ lat ∧ lat ≤ 90)
    ∧ (∀ (teams : List Team) (user : Principal) (body : TeamBody) (newId : ObjectId)
        (now : Nat) (v : List Int),
        user.role = .admin ∨ user.role = .rescue →
        body.location = some (some v) → coordinatesValid v = false →
        createTeam teams user body newId now = (.validationError, teams))
    ∧ (∀ (teams : List Team) (user : Principal) (body : TeamBody) (newId : ObjectId)
        (now : Nat),
        body.location = some none →
        createTeam teams user body newId now
          = createTeam teams user { body with location := some (some [0, 0]) } newId now)
    ∧ coordinatesValid [0, 0] = true := by
  refine ⟨coordinatesValid_iff, ?_, ?_, by decide⟩
  · intro teams user body newId now v hrole hloc hv
    have hr : (user.role != .admin && user.role != .rescue) = false := by
      rcases hrole with h | h <;> simp [h]
    unfold createTeam
    rw [hr, hloc]
    simp [hv]
  · intro teams user body newId now hloc
    unfold createTeam
    rw [hloc]
    rfl

/-- Witness of the amended C20: the latitude 91 is out of range and the request
fails validation. -/
theorem coordinates_validation_witness :
    createTeam [] ⟨1, .admin⟩ { sampleBody with location := some (some [10, 91]) } 7 0
      = (.validationError, []) :=
  coordinates_validation.2.1 [] ⟨1, .admin⟩ { sampleBody with location := some (some [10, 91]) }
    7 0 [10, 91] (Or.inl rfl) rfl (by decide)

/-! ## Terminal metadata along sequences of calls -/

theorem mem_incident_save (incidents : List Incident) (doc i : Incident)
    (h : i ∈ Incident.save incidents doc) : i = doc ∨ i ∈ incidents := by
  unfold Incident.save at h
  obtain ⟨x, hx, hxi⟩ := List.mem_map.mp h
  by_cases hc : (x._id == doc._id) = true
  · rw [if_pos hc] at hxi
    exact Or.inl hxi.symm
  · rw [if_neg hc] at hxi
    exact Or.inr (hxi ▸ hx)

theorem mem_report_save (reports : List Report) (doc r : Report)
    (h : r ∈ Report.save reports doc) : r = doc ∨ r ∈ reports := by
  unfold Report.save at h
  obtain ⟨x, hx, hxr⟩ := List.mem_map.mp h
  by_cases hc : (x._id == doc._id) = true
  · rw [if_pos hc] at hxr
    exact Or.inl hxr.symm
  · rw [if_neg hc] at hxr
    exact Or.inr (hxr ▸ hx)

/-- What one incident request can do to the collection: nothing, append a
document in status `new`, or save one document; a saved document in status
`cancelled` carries `cancelledBy`, and `cancelReason` when the request gave a
reason. -/
theorem incidentCall_run_shape (incidents : List Incident) (c : IncidentCall) :
    c.run incidents = incidents
    ∨ (∃ doc, c.run incidents = incidents ++ [doc] ∧ doc.status = .new)
    ∨ (∃ doc, c.run incidents = Incident.save incidents doc
        ∧ (doc.status = .cancelled →
            doc.cancelledBy.isSome = true
            ∧ (c.givesReason = true → doc.cancelReason.isSome = true))) := by
  cases c with
  | create body newId =>
    simp only [IncidentCall.run, createIncident]
    split_ifs <;> first | exact Or.inl rfl | exact Or.inr (Or.inl ⟨_, rfl, rfl⟩)
  | assign teams user incidentId teamId e =>
    simp only [IncidentCall.run]
    by_cases hadmin : user.role = .admin
    · cases hT : teamId.bind (Team.findById teams) with
      | none =>
        rw [assignTeam_unresolved teams incidents user incidentId teamId e hT]
        left
        simp [hadmin]
      | some team =>
        cases hi : Incident.findById incidents incidentId with
        | none =>
          left
          simp [assignTeam, hadmin, hT, Incident.findByIdAndUpdate, hi]
        | some i =>
          right
          right
          refine ⟨{ i with
                    assignedTeam := teamId
                    status := .assigned
                    etaMinutes := if e.isSome then e else i.etaMinutes }, ?_, ?_⟩
          · simp [assignTeam, hadmin, hT, Incident.findByIdAndUpdate, hi]
          · intro hc
            simp at hc
    · left
      simp [assignTeam, hadmin]
  | accept incidentId teamId e =>
    simp only [IncidentCall.run]
    cases hi : Incident.findById incidents incidentId with
    | none =>
      left
      simp [acceptIncident, hi]
    | some i =>
      right
      right
      rw [acceptIncident_found incidents incidentId teamId e i hi]
      exact ⟨_, rfl, fun hc => by simp at hc⟩
  | cancel user incidentId reason =>
    simp only [IncidentCall.run]
    by_cases hadmin : user.role = .admin
    · cases hi : Incident.findById incidents incidentId with
      | none =>
        left
        simp [cancelIncident, hadmin, Incident.findByIdAndUpdate, hi]
      | some i =>
        right
        right
        rw [cancelIncident_found incidents user incidentId reason i hadmin hi]
        refine ⟨_, rfl, fun _ => ⟨rfl, ?_⟩⟩
        intro hr
        simp only [IncidentCall.givesReason] at hr
        show (if reason.isSome then reason else i.cancelReason).isSome = true
        rw [if_pos hr]
        exact hr
    · left
      simp [cancelIncident, hadmin]

/-- What one report request can do to the collection: nothing, append a
document in status `pending`, or save one document that carries `completedAt`
if its status is `completed`. -/
theorem reportCall_run_shape (reports : List Report) (c : ReportCall) :
    c.run reports = reports
    ∨ (∃ doc, c.run reports = reports ++ [doc] ∧ doc.status = .pending)
    ∨ (∃ doc, c.run reports = Report.save reports doc
        ∧ (doc.status = .completed → doc.completedAt.isSome = true)) := by
  cases c with
  | create user body newId now =>
    simp only [ReportCall.run, createReport]
    split_ifs <;> first | exact Or.inl rfl | exact Or.inr (Or.inl ⟨_, rfl, rfl⟩)
  | assign user id teamId e adminNotes now =>
    simp only [ReportCall.run]
    cases hr : Report.findById reports id with
    | none =>
      left
      simp [assignReport, hr]
    | some r =>
      right
      right
      rw [assignReport_found reports user id teamId e adminNotes now r hr]
      exact ⟨_, rfl, fun hc => by simp at hc⟩
  | setStatus id status notes now =>
    simp only [ReportCall.run]
    cases hs : allowedStatus status with
    | none =>
      left
      simp [updateReportStatus, hs]
    | some st =>
      cases hr : Report.findById reports id with
      | none =>
        left
        simp [updateReportStatus, hs, hr]
      | some r =>
        right
        right
        rw [updateReportStatus_found reports id status notes now st r hs hr]
        refine ⟨_, rfl, ?_⟩
        intro hc
        have hst : st = .completed := hc
        show (if st = .completed then some now else r.completedAt).isSome = true
        rw [if_pos hst]
        rfl

theorem incident_calls_keep (P : Incident → Prop) (Q : IncidentCall → Prop)
    (hnew : ∀ doc : Incident, doc.status = .new → P doc)
    (hsave : ∀ (c : IncidentCall) (doc : Incident), Q c →
      (doc.status = .cancelled →
        doc.cancelledBy.isSome = true ∧ (c.givesReason = true → doc.cancelReason.isSome = true)) →
      P doc)
    (calls : List IncidentCall) (hQ : ∀ c ∈ calls, Q c) :
    ∀ (incidents : List Incident), (∀ i ∈ incidents, P i) →
      ∀ i ∈ calls.foldl IncidentCall.run incidents, P i := by
  induction calls with
  | nil =>
    intro incidents h i hi
    exact h i hi
  | cons c cs ih =>
    intro incidents h
    rw [List.foldl_cons]
    apply ih (fun c2 hc2 => hQ c2 (List.mem_cons_of_mem _ hc2))
    have hc : Q c := hQ c (List.mem_cons_self _ _)
    rcases incidentCall_run_shape incidents c with hs | ⟨doc, hs, hd⟩ | ⟨doc, hs, hd⟩
    · rw [hs]
      exact h
    · rw [hs]
      intro i hi
      rcases List.mem_append.mp hi with hi | hi
      · exact h i hi
      · rw [List.mem_singleton] at hi
        exact hi ▸ hnew doc hd
    · rw [hs]
      intro i hi
      rcases mem_incident_save incidents doc i hi with hi | hi
      · exact hi ▸ hsave c doc hc hd
      · exact h i hi

theorem report_calls_keep (calls : List ReportCall) :
    ∀ (reports : List Report),
      (∀ r ∈ reports, r.status = .completed → r.completedAt.isSome = true) →
      ∀ r ∈ calls.foldl ReportCall.run reports,
        r.status = .completed → r.completedAt.isSome = true := by
  induction calls with
  | nil =>
    intro reports h r hr
    exact h r hr
  | cons c cs ih =>
    intro reports h
    rw [List.foldl_cons]
    apply ih
    rcases reportCall_run_shape reports c with hs | ⟨doc, hs, hd⟩ | ⟨doc, hs, hd⟩
    · rw [hs]
      exact h
    · rw [hs]
      intro r hr
      rcases List.mem_append.mp hr with hr | hr
      · exact h r hr
      · rw [List.mem_singleton] at hr
        subst hr
        intro hc
        rw [hd] at hc
        exact absurd hc (by decide)
    · rw [hs]
      intro r hr
      rcases mem_report_save reports doc r hr with hr | hr
      · exact hr ▸ hd
      · exact h r hr

/-- C12 (terminal metadata), refuted on the code.  A report that is created,
set to `completed` at time 5 and then set back to `pending` keeps
`completedAt = 5` in status `pending`.  An incident that is created, cancelled
with a reason and then assigned is in status `assigned` with `cancelReason` and
`cancelledBy` still set; an incident cancelled without a reason is `cancelled`
with no `cancelReason`. -/
theorem terminal_metadata_outlives_status :
    runReportCalls
        [.create ⟨20, .user⟩ sampleReportBody 8 1,
         .setStatus 8 "completed" none 5,
         .setStatus 8 "pending" none 6]
      = [{ pendingReport with completedAt := some 5 }]
    ∧ runIncidentCalls
        [.create sampleIncidentBody 6,
         .cancel ⟨1, .admin⟩ 6 (some "duplicate"),
         .assign [sampleTeam] ⟨1, .admin⟩ 6 (some 1) (some 30)]
      = [{ newIncident with
            status := .assigned, assignedTeam := some 1, etaMinutes := some 30,
            cancelledBy := some 1, cancelReason := some "duplicate" }]
    ∧ runIncidentCalls
        [.create sampleIncidentBody 6,
         .cancel ⟨1, .admin⟩ 6 none]
      = [{ newIncident with status := .cancelled, cancelledBy := some 1 }] := by
  refine ⟨by decide, by decide, by decide⟩

/-- C12 as amended.  After any sequence of `createReport`, `assignReport` and
`updateReportStatus` calls, every stored report in status `completed` has
`completedAt` set.  After any sequence of `createIncident`, `assignTeam`,
`acceptIncident` and `cancelIncident` calls, every stored incident in status
`cancelled` has `cancelledBy` set, and has `cancelReason` set as well when every
cancel call of the sequence gave a reason. -/
theorem terminal_metadata_when_terminal :
    (∀ (calls : List ReportCall) (r : Report), r ∈ runReportCalls calls →
        r.status = .completed → r.completedAt.isSome = true)
    ∧ (∀ (calls : List IncidentCall) (i : Incident), i ∈ runIncidentCalls calls →
        i.status = .cancelled → i.cancelledBy.isSome = true)
    ∧ (∀ (calls : List IncidentCall), (∀ c ∈ calls, c.givesReason = true) →
        ∀ (i : Incident), i ∈ runIncidentCalls calls →
        i.status = .cancelled → i.cancelReason.isSome = true) := by
  refine ⟨?_, ?_, ?_⟩
  · intro calls r hr
    exact report_calls_keep calls [] (fun r hr => absurd hr (List.not_mem_nil r)) r hr
  · intro calls i hi
    refine incident_calls_keep
      (fun i => i.status = .cancelled → i.cancelledBy.isSome = true) (fun _ => True)
      ?_ ?_ calls (fun _ _ => trivial) [] (fun i hi => absurd hi (List.not_mem_nil i)) i hi
    · intro doc hd hc
      rw [hd] at hc
      exact absurd hc (by decide)
    · intro c doc _ hd hc
      exact (hd hc).1
  · intro calls hgive i hi
    refine incident_calls_keep
      (fun i => i.status = .cancelled → i.cancelReason.isSome = true)
      (fun c => c.givesReason = true)
      ?_ ?_ calls hgive [] (fun i hi => absurd hi (List.not_mem_nil i)) i hi
    · intro doc hd hc
      rw [hd] at hc
      exact absurd hc (by decide)
    · intro c doc hq hd hc
      exact (hd hc).2 hq

/-- Witness of the amended C12: report 8, created and then completed at time 5,
is stored in status `completed` with `completedAt` set. -/
theorem terminal_metadata_when_terminal_witness :
    ({ pendingReport with status := .completed, completedAt := some 5 } : Report).completedAt.isSome
      = true :=
  terminal_metadata_when_terminal.1
    [.create ⟨20, .user⟩ sampleReportBody 8 1, .setStatus 8 "completed" none 5]
    { pendingReport with status := .completed, completedAt := some 5 }
    (by decide) (by decide)

/-! ## Deleting a team -/

theorem findById_findByIdAndDelete_other (teams : List Team) (id j : ObjectId) (h : j ≠ id) :
    Team.findById (Team.findByIdAndDelete teams id) j = Team.findById teams j := by
  induction teams with
  | nil => rfl
  | cons x xs ih =>
    unfold Team.findById Team.findByIdAndDelete at ih ⊢
    by_cases hx : x._id = id
    · have hxj : ¬ x._id = j := fun e => h (e.symm.trans hx)
      rw [List.eraseP_cons_of_pos (by simpa using hx),
        List.find?_cons_of_neg _ (by simpa using hxj)]
    · rw [List.eraseP_cons_of_neg (by simpa using hx)]
      by_cases hxj : x._id = j
      · rw [List.find?_cons_of_pos _ (by simpa using hxj),
          List.find?_cons_of_pos _ (by simpa using hxj)]
      · rw [List.find?_cons_of_neg _ (by simpa using hxj),
          List.find?_cons_of_neg _ (by simpa using hxj)]
        exact ih

theorem findById_findByIdAndDelete_self (teams : List Team) (id : ObjectId)
    (hnd : (teams.map (fun t => t._id)).Nodup) :
    Team.findById (Team.findByIdAndDelete teams id) id = none := by
  induction teams with
  | nil => rfl
  | cons x xs ih =>
    have hnd2 : x._id ∉ xs.map (fun t => t._id) ∧ (xs.map (fun t => t._id)).Nodup := by
      simpa using hnd
    unfold Team.findById Team.findByIdAndDelete at ih ⊢
    by_cases hx : x._id = id
    · rw [List.eraseP_cons_of_pos (by simpa using hx), List.find?_eq_none]
      intro t ht hid
      have hid2 : t._id = id := by simpa using hid
      exact hnd2.1 (List.mem_map.mpr ⟨t, ht, hid2.trans hx.symm⟩)
    · rw [List.eraseP_cons_of_neg (by simpa using hx),
        List.find?_cons_of_neg _ (by simpa using hx)]
      exact ih hnd2.2

/-- C18 (deleteTeam and open cases), refuted on the code.  Incident 7 is in the
non-terminal status `assigned` and names team 1 as `assignedTeam`; `deleteTeam`
by an admin on team 1 answers 204 and removes the team, after which the
incident's team id resolves to nothing. -/
theorem deleteTeam_ignores_open_cases :
    assignedIncident.status = .assigned
    ∧ assignedIncident.assignedTeam = some 1
    ∧ deleteTeam [sampleTeam] ⟨1, .admin⟩ 1 = (.success 204 (), [])
    ∧ Team.findById (deleteTeam [sampleTeam] ⟨1, .admin⟩ 1).2 1 = none := by
  refine ⟨by decide, by decide, by decide, by decide⟩

/-- C18 as amended.  `deleteTeam` reads no case.  By a caller who is not an
admin it always fails, with the 404 error when the id does not resolve and with
the 403 error otherwise, and leaves the team collection as it was.  By an admin
on a stored team it answers 204 and removes that team: with unique ids the id
no longer resolves afterwards, and every other id resolves as before. -/
theorem deleteTeam_spec (teams : List Team) (user : Principal) (teamId : ObjectId) :
    (user.role ≠ .admin →
        (deleteTeam teams user teamId).2 = teams
        ∧ (Team.findById teams teamId = none →
            (deleteTeam teams user teamId).1 = .failure 404 "No team found with that ID")
        ∧ (∀ t, Team.findById teams teamId = some t →
            (deleteTeam teams user teamId).1
              = .failure 403 "You do not have permission to delete this team"))
    ∧ (user.role = .admin → Team.findById teams teamId = none →
        deleteTeam teams user teamId = (.failure 404 "No team found with that ID", teams))
    ∧ (∀ t, user.role = .admin → Team.findById teams teamId = some t →
        deleteTeam teams user teamId = (.success 204 (), Team.findByIdAndDelete teams teamId)
        ∧ ((teams.map (fun t => t._id)).Nodup →
            Team.findById (deleteTeam teams user teamId).2 teamId = none)
        ∧ (∀ j, j ≠ teamId →
            Team.findById (deleteTeam teams user teamId).2 j = Team.findById teams j)) := by
  refine ⟨?_, ?_, ?_⟩
  · intro hrole
    cases hf : Team.findById teams teamId with
    | none => simp [deleteTeam, hf]
    | some t => simp [deleteTeam, hf, hrole]
  · intro hrole hf
    simp [deleteTeam, hf]
  · intro t hrole hf
    have heq : deleteTeam teams user teamId
        = (.success 204 (), Team.findByIdAndDelete teams teamId) := by
      simp [deleteTeam, hf, hrole]
    rw [heq]
    exact ⟨rfl, fun hnd => findById_findByIdAndDelete_self teams teamId hnd,
      fun j hj => findById_findByIdAndDelete_other teams teamId j hj⟩

/-- Witness of the amended C18: user 10, the leader of team 1 with role `rescue`,
may not delete it, and the collection is unchanged. -/
theorem deleteTeam_spec_witness :
    (deleteTeam [sampleTeam] ⟨10, .rescue⟩ 1).2 = [sampleTeam]
    ∧ (deleteTeam [sampleTeam] ⟨10, .rescue⟩ 1).1
        = .failure 403 "You do not have permission to delete this team" :=
  ⟨((deleteTeam_spec [sampleTeam] ⟨10, .rescue⟩ 1).1 (by decide)).1,
    ((deleteTeam_spec [sampleTeam] ⟨10, .rescue⟩ 1).1 (by decide)).2.2 sampleTeam (by decide)⟩

/-! ## Reading reports -/

/-- The reports `getReports` answers with are, up to order, the stored reports
that match the status filter and, for a caller who is not an admin, belong to
the caller. -/
theorem getReports_visibility (reports : List Report) (users : List User) (user : Principal)
    (status : Option String) :
    ∃ sorted : List Report,
      getReports reports users user status = .success 200 (sorted.map (populate users))
      ∧ (∀ r, r ∈ sorted ↔
          r ∈ reports
          ∧ (truthyString status = true → some r.status.name = status)
          ∧ (user.role ≠ .admin → r.user = user._id)) := by
  refine ⟨_, rfl, ?_⟩
  intro r
  rw [(List.perm_insertionSort _ _).mem_iff, List.mem_filter]
  by_cases hs : truthyString status = true
  · by_cases hr : user.role = .admin
    · cases status with
      | none => simp [truthyString] at hs
      | some v => simp [hs, hr]
    · cases status with
      | none => simp [truthyString] at hs
      | some v => simp [hs, hr]
  · by_cases hr : user.role = .admin
    · simp [hs, hr]
    · simp [hs, hr]

theorem getReportById_non_admin (reports : List Report) (users : List User) (user : Principal)
    (id : ObjectId) (hr : user.role ≠ .admin) :
    ∀ (code : Nat) (data : PopulatedReport),
      getReportById reports users user id ≠ .success code data := by
  intro code data
  unfold getReportById
  cases hf : (Report.findById reports id).map (populate users) with
  | none => simp
  | some report =>
    cases ho : report.user with
    | none => simp [hr, ho]
    | some owner => simp [hr, ho]

/-- C19 (report visibility by role), evaluated on the code.  User 20 owns the
stored report 8 and is a stored user.  `getReports` by user 20 answers with that
report, and `getReportById` by an admin answers with it, but `getReportById` by
user 20, the owner, fails with the 403 error: the ownership test compares the
rendering of the populated user document with the caller's id. -/
theorem getReportById_refuses_owner :
    pendingReport.user = 20
    ∧ getReports [pendingReport] [sampleUser] ⟨20, .user⟩ none
        = .success 200 [populate [sampleUser] pendingReport]
    ∧ getReportById [pendingReport] [sampleUser] ⟨1, .admin⟩ 8
        = .success 200 (populate [sampleUser] pendingReport)
    ∧ getReportById [pendingReport] [sampleUser] ⟨20, .user⟩ 8
        = .failure 403 "Not authorized to view this report" := by
  refine ⟨by decide, by decide, by decide, by decide⟩

/-! ## Finding teams -/

/-- The teams `findBySpecialization` returns are the stored teams whose tags
include the value, in stored order. -/
theorem findBySpecialization_mem (teams : List Team) (tag : String) (t : Team) :
    t ∈ Team.findBySpecialization teams tag ↔ t ∈ teams ∧ tag ∈ t.specialization := by
  simp [Team.findBySpecialization, List.mem_filter]

/-- C21 (findBySpecialization and active teams), evaluated on the code.  The
stored team 4 is deactivated (`isActive` false) and tagged `medical`;
`findBySpecialization("medical")` returns it next to the active team 2. -/
theorem findBySpecialization_returns_inactive :
    inactiveMedics.isActive = false
    ∧ Team.findBySpecialization [pairTeam, sampleTeam, inactiveMedics] "medical"
        = [pairTeam, inactiveMedics]
    ∧ getTeamsBySpecialization [pairTeam, sampleTeam, inactiveMedics] "medical"
        = .success 200 [pairTeam, inactiveMedics] := by
  refine ⟨by decide, by decide, by decide⟩

/-- C22 (findNearLocation).  For every distance function, team collection, query
point and `maxDistance` (10000 when absent), `findNearLocation` returns exactly
the stored teams with `isActive` true whose coordinates lie within `maxDistance`
of the point, each as often as it is stored, ordered by non-decreasing distance
from the point; the handler answers 200 with that list when both `lng` and `lat`
are given.  The query is a function of the collection and returns no new
collection. -/
theorem findNearLocation_spec (distance : List Int → List Int → ℚ) (teams : List Team)
    (point : List Int) (maxDistance : Option Nat) :
    (∀ t, t ∈ Team.findNearLocation distance teams point maxDistance ↔
        t ∈ teams ∧ t.isActive = true
        ∧ distance t.coordinates point ≤ ((maxDistance.getD 10000 : Nat) : ℚ))
    ∧ (Team.findNearLocation distance teams point maxDistance).Perm
        (teams.filter (fun t =>
          decide (distance t.coordinates point ≤ ((maxDistance.getD 10000 : Nat) : ℚ))
            && t.isActive))
    ∧ List.Sorted (fun a b => distance a.coordinates point ≤ distance b.coordinates point)
        (Team.findNearLocation distance teams point maxDistance)
    ∧ Team.findNearLocation distance teams point none
        = Team.findNearLocation distance teams point (some 10000)
    ∧ (∀ (x y : Int),
        getTeamsNearLocation distance teams (some x) (some y) maxDistance
          = .success 200 (Team.findNearLocation distance teams [x, y] maxDistance)) := by
  refine ⟨?_, ?_, ?_, rfl, ?_⟩
  · intro t
    unfold Team.findNearLocation
    rw [(List.perm_insertionSort _ _).mem_iff, List.mem_filter]
    simp only [Bool.and_eq_true, decide_eq_true_eq]
    constructor
    · rintro ⟨h1, h2, h3⟩
      exact ⟨h1, h3, h2⟩
    · rintro ⟨h1, h2, h3⟩
      exact ⟨h1, h3, h2⟩
  · unfold Team.findNearLocation
    exact List.perm_insertionSort _ _
  · unfold Team.findNearLocation
    haveI : IsTotal Team
        (fun a b => distance a.coordinates point ≤ distance b.coordinates point) :=
      ⟨fun a b => le_total _ _⟩
    haveI : IsTrans Team
        (fun a b => distance a.coordinates point ≤ distance b.coordinates point) :=
      ⟨fun _ _ _ hab hbc => le_trans hab hbc⟩
    exact List.sorted_insertionSort _ _
  · intro x y
    cases maxDistance with
    | none => rfl
    | some m => rfl

/-- Witness of C22 with the distance `gridDistance`, the query point `[1, 1]` and
`maxDistance = 5`: of the four stored teams the active teams 5 and 1 are
returned, nearest first; the far team 6 and the deactivated team 4 are not. -/
theorem findNearLocation_spec_witness :
    Team.findNearLocation gridDistance [sampleTeam, farTeam, inactiveMedics, northTeam] [1, 1]
        (some 5) = [northTeam, sampleTeam]
    ∧ List.Sorted (fun a b => gridDistance a.coordinates [1, 1] ≤ gridDistance b.coordinates [1, 1])
        (Team.findNearLocation gridDistance [sampleTeam, farTeam, inactiveMedics, northTeam]
          [1, 1] (some 5)) :=
  ⟨by decide,
    (findNearLocation_spec gridDistance [sampleTeam, farTeam, inactiveMedics, northTeam] [1, 1]
      (some 5)).2.2.1⟩

/-! ## Two concurrent roster requests -/

/-- A request pushes nothing, or pushes one entry, and then only if the copy it
read had room. -/
theorem pushed_cases (t : Team) (r : RosterRequest) :
    r.pushed t = [] ∨ ∃ e, r.pushed t = [e] ∧ t.members.length + 1 < t.capacity := by
  cases r with
  | add userId role now =>
    by_cases hm : userId ∈ memberIds t.members
    · left
      simp [RosterRequest.pushed, addMember_of_mem t userId role now hm]
    · by_cases hc : t.capacity ≤ t.members.length + 1
      · left
        simp [RosterRequest.pushed, addMember_of_full t userId role now hm hc]
      · right
        have hroom : t.members.length + 1 < t.capacity := not_le.mp hc
        refine ⟨⟨userId, role, now⟩, ?_, hroom⟩
        simp [RosterRequest.pushed, addMember_of_room t userId role now hm hroom]
  | join user now =>
    by_cases hl : t.leader = user._id
    · left
      simp [RosterRequest.pushed, hl]
    · by_cases hm : user._id ∈ memberIds t.members
      · left
        have hany := (any_user_iff t.members user._id).mpr hm
        simp only [RosterRequest.pushed, beq_iff_eq, hl, if_false, hany, if_true]
      · have hany : t.members.any (fun m => m.user == user._id) = false := by
          rw [Bool.eq_false_iff]
          exact fun hh => hm ((any_user_iff t.members user._id).mp hh)
        have hcount : ((memberCount t : ℕ) : ℚ) = (t.members.length : ℚ) + 1 := by
          simp [memberCount]
        by_cases hc : t.capacity ≤ t.members.length + 1
        · left
          have hfull : ((memberCount t : ℕ) : ℚ) ≥ t.capacity := by
            rw [hcount]
            exact hc
          simp only [RosterRequest.pushed, beq_iff_eq, hl, if_false, hany, hfull, if_true]
          simp
        · right
          have hroom : t.members.length + 1 < t.capacity := not_le.mp hc
          have hfree : ¬ ((memberCount t : ℕ) : ℚ) ≥ t.capacity := by
            rw [hcount]
            exact hc
          refine ⟨⟨user._id, .member, now⟩, ?_, hroom⟩
          simp only [RosterRequest.pushed, beq_iff_eq, hl, if_false, hany, hfree]
          simp [addMember_of_room t user._id .member now hm hroom]

/-- With a whole capacity, appending what a request pushed to the team it read
keeps `members.length + 1 ≤ capacity`. -/
theorem pushed_keeps_capacity (t : Team) (r : RosterRequest) (n : Nat)
    (hn : t.capacity = (n : ℚ)) (h : (t.members.length : ℚ) + 1 ≤ t.capacity) :
    (((t.members ++ r.pushed t).length : ℕ) : ℚ) + 1 ≤ t.capacity := by
  rcases pushed_cases t r with h0 | ⟨e, he, hroom⟩
  · rw [h0, List.append_nil]
    exact h
  · have hN : t.members.length + 1 < n := (occupancy_lt_whole t n hn _).mp hroom
    apply (occupancy_le_whole t n hn _).mpr
    rw [he, List.length_append, List.length_singleton]
    omega

theorem runSchedule_serial_first (t : Team) (a b : RosterRequest) :
    runSchedule t a b [.read .first, .save .first, .read .second, .save .second]
      = { stored :=
            { t with
              members := (t.members ++ a.pushed t)
                ++ b.pushed { t with members := t.members ++ a.pushed t } }
          first := some (a.pushed t)
          second := some (b.pushed { t with members := t.members ++ a.pushed t }) } :=
  rfl

theorem runSchedule_serial_second (t : Team) (a b : RosterRequest) :
    runSchedule t a b [.read .second, .save .second, .read .first, .save .first]
      = { stored :=
            { t with
              members := (t.members ++ b.pushed t)
                ++ a.pushed { t with members := t.members ++ b.pushed t } }
          first := some (a.pushed { t with members := t.members ++ b.pushed t })
          second := some (b.pushed t) } :=
  rfl

/-- After a request that passed on a team with one free slot has saved, a
request that reads the saved team pushes nothing. -/
theorem pushed_after_last_slot (t : Team) (r1 r2 : RosterRequest)
    (hslot : t.members.length + 2 = t.capacity) (h1 : r1.pushed t ≠ []) :
    r2.pushed { t with members := t.members ++ r1.pushed t } = [] := by
  rcases pushed_cases t r1 with h0 | ⟨e, he, _⟩
  · exact absurd h0 h1
  · rcases pushed_cases { t with members := t.members ++ r1.pushed t } r2 with h2 | ⟨e2, _, hroom⟩
    · exact h2
    · exfalso
      have hlen : (t.members ++ r1.pushed t).length = t.members.length + 1 := by
        rw [he, List.length_append, List.length_singleton]
      have hroom2 : (((t.members ++ r1.pushed t).length : ℕ) : ℚ) + 1 < t.capacity := hroom
      rw [hlen, ← hslot] at hroom2
      push_cast at hroom2
      linarith

theorem passed_some_iff (l : List Member) : passed (some l) = true ↔ l ≠ [] := by
  cases l with
  | nil => simp [passed]
  | cons x xs => simp [passed]

/-- C23 (capacity under concurrency), refuted on the code.  `pairTeam` has
capacity 2 and no members, so one slot is free.  An `addMember` request for user
11 and a `joinTeam` request of user 12 both read the team before either saves:
both pass the capacity check, both save, and the stored team ends with two
members, so `members.length + 1 = 3 > 2 = capacity`. -/
theorem concurrent_requests_both_pass :
    pairTeam.members.length + 2 = pairTeam.capacity
    ∧ passed (runSchedule pairTeam (.add 11 .member 3) (.join ⟨12, .user⟩ 4)
        [.read .first, .read .second, .save .first, .save .second]).first = true
    ∧ passed (runSchedule pairTeam (.add 11 .member 3) (.join ⟨12, .user⟩ 4)
        [.read .first, .read .second, .save .first, .save .second]).second = true
    ∧ (runSchedule pairTeam (.add 11 .member 3) (.join ⟨12, .user⟩ 4)
        [.read .first, .read .second, .save .first, .save .second]).stored.members
        = [⟨11, .member, 3⟩, ⟨12, .member, 4⟩]
    ∧ (runSchedule pairTeam (.add 11 .member 3) (.join ⟨12, .user⟩ 4)
        [.read .first, .read .second, .save .first, .save .second]).stored.members.length + 1
        > (runSchedule pairTeam (.add 11 .member 3) (.join ⟨12, .user⟩ 4)
        [.read .first, .read .second, .save .first, .save .second]).stored.capacity := by
  have hm : (runSchedule pairTeam (.add 11 .member 3) (.join ⟨12, .user⟩ 4)
      [.read .first, .read .second, .save .first, .save .second]).stored.members
      = [⟨11, .member, 3⟩, ⟨12, .member, 4⟩] := by decide
  have hc : (runSchedule pairTeam (.add 11 .member 3) (.join ⟨12, .user⟩ 4)
      [.read .first, .read .second, .save .first, .save .second]).stored.capacity = 2 := rfl
  refine ⟨by norm_num [pairTeam], by decide, by decide, hm, ?_⟩
  rw [hm, hc]
  norm_num

/-- C23 as amended.  When one of two `addMember` or `joinTeam` requests on a team
has saved before the other reads, the stored team, if its capacity is a whole
number, keeps `members.length + 1 ≤ capacity`, and with one slot free the two requests do not
both pass the capacity check.  When both requests read before either saves,
each decides on the team as it was before both, and the stored team receives
what both pushed; with one slot free, two requests that would each pass alone
both pass, and the stored team ends with `members.length + 1 = capacity + 1`. -/
theorem capacity_under_schedules (t : Team) (a b : RosterRequest) :
    (∀ (n : Nat), t.capacity = (n : ℚ) → t.members.length + 1 ≤ t.capacity →
        ∀ s ∈ serialSchedules,
          (runSchedule t a b s).stored.members.length + 1
            ≤ (runSchedule t a b s).stored.capacity)
    ∧ (t.members.length + 2 = t.capacity →
        ∀ s ∈ serialSchedules,
          ¬ (passed (runSchedule t a b s).first = true
              ∧ passed (runSchedule t a b s).second = true))
    ∧ (∀ s ∈ racingSchedules,
        (runSchedule t a b s).first = some (a.pushed t)
        ∧ (runSchedule t a b s).second = some (b.pushed t)
        ∧ (runSchedule t a b s).stored.capacity = t.capacity
        ∧ ((runSchedule t a b s).stored.members = t.members ++ a.pushed t ++ b.pushed t
            ∨ (runSchedule t a b s).stored.members = t.members ++ b.pushed t ++ a.pushed t))
    ∧ (t.members.length + 2 = t.capacity → a.pushed t ≠ [] → b.pushed t ≠ [] →
        ∀ s ∈ racingSchedules,
          passed (runSchedule t a b s).first = true
          ∧ passed (runSchedule t a b s).second = true
          ∧ (runSchedule t a b s).stored.members.length + 1
              = (runSchedule t a b s).stored.capacity + 1) := by
  have hracing : ∀ s ∈ racingSchedules,
      (runSchedule t a b s).first = some (a.pushed t)
      ∧ (runSchedule t a b s).second = some (b.pushed t)
      ∧ (runSchedule t a b s).stored.capacity = t.capacity
      ∧ ((runSchedule t a b s).stored.members = t.members ++ a.pushed t ++ b.pushed t
          ∨ (runSchedule t a b s).stored.members = t.members ++ b.pushed t ++ a.pushed t) := by
    intro s hs
    simp only [racingSchedules, List.mem_cons, List.mem_singleton, List.not_mem_nil,
      or_false] at hs
    rcases hs with rfl | rfl | rfl | rfl
    · exact ⟨rfl, rfl, rfl, Or.inl rfl⟩
    · exact ⟨rfl, rfl, rfl, Or.inr rfl⟩
    · exact ⟨rfl, rfl, rfl, Or.inl rfl⟩
    · exact ⟨rfl, rfl, rfl, Or.inr rfl⟩
  refine ⟨?_, ?_, hracing, ?_⟩
  · intro n hn h s hs
    simp only [serialSchedules, List.mem_cons, List.mem_singleton, List.not_mem_nil,
      or_false] at hs
    rcases hs with rfl | rfl
    · rw [runSchedule_serial_first]
      exact pushed_keeps_capacity { t with members := t.members ++ a.pushed t } b n hn
        (pushed_keeps_capacity t a n hn h)
    · rw [runSchedule_serial_second]
      exact pushed_keeps_capacity { t with members := t.members ++ b.pushed t } a n hn
        (pushed_keeps_capacity t b n hn h)
  · intro hslot s hs
    simp only [serialSchedules, List.mem_cons, List.mem_singleton, List.not_mem_nil,
      or_false] at hs
    rcases hs with rfl | rfl
    · rw [runSchedule_serial_first]
      rintro ⟨h1, h2⟩
      have h1n := (passed_some_iff _).mp h1
      have h2n := (passed_some_iff _).mp h2
      exact h2n (pushed_after_last_slot t a b hslot h1n)
    · rw [runSchedule_serial_second]
      rintro ⟨h1, h2⟩
      have h1n := (passed_some_iff _).mp h1
      have h2n := (passed_some_iff _).mp h2
      exact h1n (pushed_after_last_slot t b a hslot h2n)
  · intro hslot ha hb s hs
    obtain ⟨h1, h2, h3, h4⟩ := hracing s hs
    rw [h1, h2, h3]
    refine ⟨(passed_some_iff _).mpr ha, (passed_some_iff _).mpr hb, ?_⟩
    rcases pushed_cases t a with h0 | ⟨ea, hea, _⟩
    · exact absurd h0 ha
    · rcases pushed_cases t b with h0 | ⟨eb, heb, _⟩
      · exact absurd h0 hb
      · rcases h4 with h4 | h4
        · rw [h4, hea, heb, ← hslot]
          simp only [List.length_append, List.length_singleton]
          push_cast
          ring
        · rw [h4, hea, heb, ← hslot]
          simp only [List.length_append, List.length_singleton]
          push_cast
          ring

/-- Witness of the amended C23 on `pairTeam`: when the `addMember` request for
user 11 has saved before user 12 reads, the two do not both pass, and the stored
team keeps `members.length + 1 ≤ capacity`. -/
theorem capacity_under_schedules_witness :
    ¬ (passed (runSchedule pairTeam (.add 11 .member 3) (.join ⟨12, .user⟩ 4)
          [.read .first, .save .first, .read .second, .save .second]).first = true
        ∧ passed (runSchedule pairTeam (.add 11 .member 3) (.join ⟨12, .user⟩ 4)
          [.read .first, .save .first, .read .second, .save .second]).second = true)
    ∧ (runSchedule pairTeam (.add 11 .member 3) (.join ⟨12, .user⟩ 4)
          [.read .first, .save .first, .read .second, .save .second]).stored.members.length + 1
        ≤ (runSchedule pairTeam (.add 11 .member 3) (.join ⟨12, .user⟩ 4)
          [.read .first, .save .first, .read .second, .save .second]).stored.capacity :=
  ⟨(capacity_under_schedules pairTeam (.add 11 .member 3) (.join ⟨12, .user⟩ 4)).2.1
      (by norm_num [pairTeam]) _ (by decide),
    (capacity_under_schedules pairTeam (.add 11 .member 3) (.join ⟨12, .user⟩ 4)).1
      2 (by norm_num [pairTeam]) (by norm_num [pairTeam]) _ (by decide)⟩

end ResQ
